import Mathlib

/-!
Verification development for the LusiLearn AI service (Python, FastAPI).

This file shallowly embeds the algorithmic core of the service —
the learning-path algorithm (`learning_path_service.py`), the content
recommendation engine (`content_recommendation_service.py`), the peer
matching engine (`peer_matching_service.py`) and the provider-fallback
orchestrator (`ai_service.py`) — and proves or refutes the frozen claims
about them.

Modelling conventions:
* Python dicts with a fixed key set become structures; keys that the code
  reads with `dict.get(k, default)` become `Option` fields read with `getD`.
* Python float arithmetic is modelled by exact rational arithmetic (`ℚ`)
  where the operations performed are exact in binary64 (sums, products and
  comparisons of the shipped decimal literals at the magnitudes the code
  combines them).  The two places the code multiplies a runtime int by a
  float literal — `int(h * 1.5)` and `int(h * 0.7)` — are modelled
  bit-exactly in IEEE-754 binary64 round-to-nearest-even arithmetic
  (`pyIntTimesConst`): `1.5` is exactly representable, while the double
  nearest `0.7` is `6305039478318694/2^53 < 0.7`, so e.g.
  `int(90 * 0.7) = 62`, one below `⌊0.7·90⌋`.  (Overflow to infinity,
  at products beyond 2^1024, is not modelled.)
* `numpy` cosine similarity needs a square root, which has no exact
  rational model; it is embedded over ℝ (see `cosineSimilarity`), and the
  recommendation pipeline takes the similarity function as an explicit
  parameter at exactly the boundary the Python code factors it
  (`_calculate_cosine_similarity`).
* Python's salted `hash(str)` is an implementation detail of the
  interpreter; the embedding is parametric in `h : String → Int`.
* `try/except` blocks around pure in-memory code cannot fire in the
  embedding (every embedded operation is total), so their handler arms
  are modelled only where they are reachable (provider calls, which are
  external and modelled as `Except`-valued parameters).
-/

/-- `EducationLevel` enum from `ai_models.py`. -/
inductive EducationLevel where
  | k12 | college | professional
deriving DecidableEq, Repr

/-- `DifficultyLevel` enum from `ai_models.py`. -/
inductive DifficultyLevel where
  | beginner | intermediate | advanced
deriving DecidableEq, Repr

/-- `ContentFormat` enum from `ai_models.py`. -/
inductive ContentFormat where
  | video | article | interactive | audio | document
deriving DecidableEq, Repr

/-- `LearningContext` enum from `ai_models.py`. -/
inductive LearningContext where
  | self_paced | classroom | group_study | exam_prep
deriving DecidableEq, Repr

/-- `.value` of a `ContentFormat` (str-enum payload). -/
def ContentFormat.val : ContentFormat → String
  | .video => "video"
  | .article => "article"
  | .interactive => "interactive"
  | .audio => "audio"
  | .document => "document"

/-- Python `str.lower()` (ASCII case folding, which is all the code relies on). -/
def pyLower (s : String) : String := { data := s.data.map Char.toLower }

/-- Helper for Python's `in` on strings: does `l` start with `p`? -/
def listStartsWith : List Char → List Char → Bool
  | _, [] => true
  | [], _ :: _ => false
  | a :: as, b :: bs => a == b && listStartsWith as bs

/-- Helper for Python's `in` on strings: does `p` occur inside `l`?
(The empty pattern occurs in every string, as in Python.) -/
def listContains : List Char → List Char → Bool
  | s, p =>
    if listStartsWith s p then true
    else match s with
      | [] => false
      | _ :: rest => listContains rest p

/-- Python `needle in haystack` on strings (substring containment). -/
def strIn (needle haystack : String) : Bool := listContains haystack.data needle.data

/-- Python dict lookup `d.get(k, default)` for a dict built by repeated
`d[k] = v` assignments, modelled as an insertion-ordered association list
where a later binding for the same key overwrites the earlier one. -/
def pyGet {κ α : Type} [BEq κ] (d : List (κ × α)) (k : κ) (default : α) : α :=
  match d.reverse.find? (fun kv => kv.1 == k) with
  | some kv => kv.2
  | none => default

/-- Python dict lookup `d.get(k)` / `d[k] if k in d` returning an option. -/
def pyGet? {κ α : Type} [BEq κ] (d : List (κ × α)) (k : κ) : Option α :=
  (d.reverse.find? (fun kv => kv.1 == k)).map (·.2)

/-- Python dict assignment `d[k] = v`: update in place if the key is
present (keeping its position), else append at the end. -/
def pySet {κ α : Type} [BEq κ] (d : List (κ × α)) (k : κ) (v : α) : List (κ × α) :=
  if d.any (fun kv => kv.1 == k) then
    d.map (fun kv => if kv.1 == k then (kv.1, v) else kv)
  else d ++ [(k, v)]

/-- Python `k in d` key test. -/
def pyHasKey {κ α : Type} [BEq κ] (d : List (κ × α)) (k : κ) : Bool :=
  d.any (fun kv => kv.1 == k)

/-!
## Learning-path objectives (`learning_path_service.py`)

Objectives flow through the code as Python dicts.  The embedding gives
them a structure whose fields are exactly the keys the code ever reads
or writes; absent keys are `none`.
-/

/-- A learning-objective dict as used throughout `learning_path_service.py`. -/
structure PyObj where
  id : Option String := none
  title : Option String := none
  description : Option String := none
  difficulty : Option DifficultyLevel := none
  estimatedHours : Option Nat := none
  estimatedWeeks : Option Nat := none
  prerequisites : Option (List String) := none
  skillsGained : Option (List String) := none
  topics : Option (List String) := none
  category : Option String := none
  remedial : Option Bool := none
  remedialContent : Option Bool := none
  accelerated : Option Bool := none
  recommendedFormats : Option (List String) := none
  sequenceNumber : Option Nat := none
  prerequisitesMet : Option Bool := none
deriving DecidableEq, Repr

/-- `obj.get('id', obj.get('title', ''))` — the identifier under which an
objective is keyed in the dependency graph. -/
def objKey (o : PyObj) : String := o.id.getD (o.title.getD "")

/-- `_build_objective_dependencies`: dict from objective key to its
`prerequisites` list (later objectives with the same key overwrite earlier
ones, as Python dict insertion does). -/
def buildObjectiveDependencies (objs : List PyObj) : List (String × List String) :=
  objs.map (fun o => (objKey o, o.prerequisites.getD []))

/-- The readiness test inside `_topological_sort_with_constraints`: every
prerequisite (taken from the dependency graph) is in `completed` or is the
`id` of an already-sorted objective.  Note the sorted-side comparison is
against `sorted_obj.get('id')` only — not the id-or-title fallback. -/
def isReady (graph : List (String × List String)) (completed : List String)
    (sorted : List PyObj) (o : PyObj) : Bool :=
  (pyGet graph (objKey o) []).all
    (fun p => completed.contains p || sorted.any (fun s => s.id == some p))

/-- `(l.diff s).length < l.length` whenever `s` is a non-empty sublist of `l`. -/
theorem diff_length_lt {α : Type} [DecidableEq α] (l s : List α)
    (hs : s.Sublist l) (hne : s ≠ []) : (l.diff s).length < l.length := by
  match s with
  | [] => exact absurd rfl hne
  | x :: xs =>
    have hx : x ∈ l := hs.subset (List.mem_cons_self x xs)
    have h1 : (l.diff (x :: xs)).length ≤ (l.erase x).length := by
      rw [List.diff_cons]
      exact (List.diff_sublist _ _).length_le
    have h2 : (l.erase x).length = l.length - 1 := List.length_erase_of_mem hx
    have h3 : 0 < l.length := List.length_pos.mpr (List.ne_nil_of_mem hx)
    omega

/-- The `while remaining:` loop of `_topological_sort_with_constraints`:
collect all ready objectives, force-admit the first remaining one if none
is ready, append them to the sorted output and remove them from
`remaining` (Python's `list.remove` removes the first equal element, which
is `List.diff`'s behaviour). -/
def topoAux (graph : List (String × List String)) (completed : List String)
    (sorted : List PyObj) : List PyObj → List PyObj
  | [] => sorted
  | r0 :: rest =>
    let remaining := r0 :: rest
    let ready := remaining.filter (isReady graph completed sorted)
    let ready1 := if ready = [] then [r0] else ready
    topoAux graph completed (sorted ++ ready1) (remaining.diff ready1)
termination_by l => l.length
decreasing_by
  refine diff_length_lt _ _ ?_ ?_
  · split
    · exact (List.nil_sublist rest).cons₂ r0
    · exact List.filter_sublist _
  · split
    · simp
    · next hne => exact hne

/-- `_topological_sort_with_constraints(objectives, dependency_graph, completed)`. -/
def topologicalSortWithConstraints (objs : List PyObj)
    (graph : List (String × List String)) (completed : List String) : List PyObj :=
  topoAux graph completed [] objs

/-- `_check_prerequisites_met(objective, completed, previous_in_sequence)`. -/
def checkPrerequisitesMet (o : PyObj) (completed : List String)
    (previous : List PyObj) : Bool :=
  (o.prerequisites.getD []).all
    (fun p => completed.contains p || previous.any (fun prev => prev.id == some p))

/-- The annotation pass at the end of `sequence_with_prerequisites`: set
`sequence_number` and `prerequisites_met` on each sorted objective.  (The
Python loop mutates the dicts in place and reads `sequenced[:i]`, whose
elements differ from the pre-annotation ones only in the two annotation
fields, which `_check_prerequisites_met` never reads.) -/
def annotateSequence (completed : List String) (sorted : List PyObj) : List PyObj :=
  sorted.mapIdx (fun i o =>
    { o with sequenceNumber := some (i + 1),
             prerequisitesMet := some (checkPrerequisitesMet o completed (sorted.take i)) })

/-- `sequence_with_prerequisites(objectives, user_completed)`. -/
def sequenceWithPrerequisites (objs : List PyObj) (completed : List String) : List PyObj :=
  annotateSequence completed
    (topologicalSortWithConstraints objs (buildObjectiveDependencies objs) completed)

/-!
### Multiset preservation of the sort loop (groundwork for C5)
-/

theorem count_diff {α : Type} [DecidableEq α] (a : α) :
    ∀ l₂ l₁ : List α, (l₁.diff l₂).count a = l₁.count a - l₂.count a := by
  intro l₂
  induction l₂ with
  | nil => intro l₁; simp
  | cons b bs ih =>
    intro l₁
    rw [List.diff_cons, ih, List.count_erase, List.count_cons]
    by_cases hba : b = a
    · subst hba; simp only [beq_self_eq_true, if_true]; omega
    · have h1 : (a == b) = false := by
        simpa [beq_iff_eq] using fun h => hba h.symm
      have h2 : (b == a) = false := by simpa [beq_iff_eq] using hba
      simp only [h1, h2, if_false]; omega

theorem topoAux_perm (graph : List (String × List String)) (completed : List String) :
    ∀ remaining sorted, (topoAux graph completed sorted remaining).Perm (sorted ++ remaining)
  | [], sorted => by simp [topoAux]
  | r0 :: rest, sorted => by
    rw [topoAux]
    have hready1 : (if ((r0 :: rest).filter (isReady graph completed sorted)) = []
        then [r0] else ((r0 :: rest).filter (isReady graph completed sorted))).Sublist
        (r0 :: rest) := by
      split
      · exact (List.nil_sublist rest).cons₂ r0
      · exact List.filter_sublist _
    have hlt : ((r0 :: rest).diff (if ((r0 :: rest).filter (isReady graph completed sorted)) = []
        then [r0] else ((r0 :: rest).filter (isReady graph completed sorted)))).length
        < (r0 :: rest).length := by
      refine diff_length_lt _ _ hready1 ?_
      split
      · simp
      · next hne => exact hne
    have ih := topoAux_perm graph completed
      ((r0 :: rest).diff (if ((r0 :: rest).filter (isReady graph completed sorted)) = []
        then [r0] else ((r0 :: rest).filter (isReady graph completed sorted))))
      (sorted ++ (if ((r0 :: rest).filter (isReady graph completed sorted)) = []
        then [r0] else ((r0 :: rest).filter (isReady graph completed sorted))))
    refine ih.trans (List.perm_iff_count.mpr (fun a => ?_))
    have hcnt := (hready1.count_le a)
    simp only [List.count_append, count_diff]
    omega
termination_by remaining => remaining.length
decreasing_by exact hlt

/-- C5: for every finite input list of objectives and every dependency graph
and completed-id list — cyclic or dangling prerequisite references included —
the topological sequencing loop terminates (`topoAux` is total: each round
moves the ready objectives, or the force-admitted first remaining one, out of
`remaining`, strictly shrinking it, which is exactly this file's termination
measure for `topoAux`), and its output contains exactly the input objectives:
the same multiset, each occurrence exactly once. -/
theorem claim_c5_topological_sort_terminates_and_permutes
    (objs : List PyObj) (graph : List (String × List String))
    (completed : List String) : (topologicalSortWithConstraints objs graph completed).Perm objs := by
  simpa using topoAux_perm graph completed objs []

/-!
### Prerequisite-ordering machinery (groundwork for C1)
-/

/-- The claim's ordering property, Boolean form: walking the output left to
right, every prerequisite of every objective is either in `completed` or is
the identifier (`objKey`) of an earlier output objective. -/
def orderingOKAux (completed : List String) : List String → List PyObj → Bool
  | _, [] => true
  | earlier, o :: rest =>
    (o.prerequisites.getD []).all (fun p => completed.contains p || earlier.contains p)
      && orderingOKAux completed (earlier ++ [objKey o]) rest

/-- Boolean ordering property of an output list (see `orderingOKAux`). -/
def orderingOK (out : List PyObj) (completed : List String) : Bool :=
  orderingOKAux completed [] out

/-- Propositional mirror of `orderingOKAux`, used in the induction. -/
def RespectsFrom (completed : List String) : List String → List PyObj → Prop
  | _, [] => True
  | earlier, o :: rest =>
    (∀ p ∈ o.prerequisites.getD [], p ∈ completed ∨ p ∈ earlier)
      ∧ RespectsFrom completed (earlier ++ [objKey o]) rest

theorem orderingOKAux_iff (completed : List String) :
    ∀ (out : List PyObj) (earlier : List String),
      orderingOKAux completed earlier out = true ↔ RespectsFrom completed earlier out
  | [], earlier => by simp [orderingOKAux, RespectsFrom]
  | o :: rest, earlier => by
    simp only [orderingOKAux, RespectsFrom, Bool.and_eq_true, List.all_eq_true,
      Bool.or_eq_true, orderingOKAux_iff completed rest]
    constructor
    · rintro ⟨h1, h2⟩
      refine ⟨fun p hp => ?_, h2⟩
      rcases h1 p hp with h | h
      · exact Or.inl (by simpa [List.elem_iff] using h)
      · exact Or.inr (by simpa [List.elem_iff] using h)
    · rintro ⟨h1, h2⟩
      refine ⟨fun p hp => ?_, h2⟩
      rcases h1 p hp with h | h
      · exact Or.inl (by simpa [List.elem_iff] using h)
      · exact Or.inr (by simpa [List.elem_iff] using h)

/-- Every prerequisite of every objective resolves: it is either in the
completed list or is the `id` of some objective of the set. -/
def ClosedObjectives (objs : List PyObj) (completed : List String) : Prop :=
  ∀ o ∈ objs, ∀ p ∈ o.prerequisites.getD [], p ∈ completed ∨ ∃ o2 ∈ objs, o2.id = some p

/-- Acyclicity of the prerequisite references: some rank function strictly
decreases along every prerequisite reference that is not already completed. -/
def AcyclicObjectives (objs : List PyObj) (completed : List String) : Prop :=
  ∃ rank : String → Nat,
    ∀ o ∈ objs, ∀ p ∈ o.prerequisites.getD [], p ∉ completed → rank p < rank (objKey o)

theorem exists_rank_min {α : Type} (f : α → Nat) :
    ∀ l : List α, l ≠ [] → ∃ a ∈ l, ∀ b ∈ l, f a ≤ f b
  | [], h => absurd rfl h
  | [x], _ => ⟨x, List.mem_singleton_self x, by simp⟩
  | x :: y :: ys, _ => by
    obtain ⟨a, ha, hmin⟩ := exists_rank_min f (y :: ys) (by simp)
    by_cases hxa : f x ≤ f a
    · refine ⟨x, List.mem_cons_self _ _, fun b hb => ?_⟩
      rcases List.mem_cons.mp hb with rfl | hb
      · exact le_refl _
      · exact hxa.trans (hmin b hb)
    · refine ⟨a, List.mem_cons_of_mem _ ha, fun b hb => ?_⟩
      rcases List.mem_cons.mp hb with rfl | hb
      · omega
      · exact hmin b hb

/-- With pairwise-distinct objective keys, the dependency-graph lookup for a
listed objective returns that objective's own prerequisite list. -/
theorem pyGet_buildDeps (objs : List PyObj) (hnd : (objs.map objKey).Nodup)
    (o : PyObj) (ho : o ∈ objs) :
    pyGet (buildObjectiveDependencies objs) (objKey o) [] = o.prerequisites.getD [] := by
  induction objs with
  | nil => cases ho
  | cons a as ih =>
    have hnd2 : (as.map objKey).Nodup := (List.nodup_cons.mp hnd).2
    have hka : objKey a ∉ as.map objKey := (List.nodup_cons.mp hnd).1
    simp only [buildObjectiveDependencies, List.map_cons, pyGet, List.reverse_cons,
      List.find?_append] at *
    rcases List.mem_cons.mp ho with rfl | ho2
    · have hnone : ((as.map (fun o => (objKey o, o.prerequisites.getD []))).reverse.find?
          (fun kv => kv.1 == objKey o)) = none := by
        rw [List.find?_eq_none]
        intro kv hkv
        simp only [List.mem_reverse, List.mem_map] at hkv
        obtain ⟨o2, ho2, rfl⟩ := hkv
        simp only [beq_iff_eq]
        intro hcon
        exact hka (hcon ▸ List.mem_map_of_mem objKey ho2)
      rw [hnone]
      simp
    · have := ih hnd2 ho2
      rcases hfind : ((as.map (fun o => (objKey o, o.prerequisites.getD []))).reverse.find?
          (fun kv => kv.1 == objKey o)) with _ | kv
      · -- impossible: o itself is an entry of the tail graph
        exfalso
        have hsome : (((as.map (fun o2 => (objKey o2, o2.prerequisites.getD []))).reverse.find?
            (fun kv => kv.1 == objKey o)).isSome) = true := by
          rw [List.find?_isSome]
          exact ⟨(objKey o, o.prerequisites.getD []),
            List.mem_reverse.mpr (List.mem_map_of_mem _ ho2), by simp⟩
        rw [hfind] at hsome
        simp at hsome
      · rw [hfind] at this ⊢
        simpa using this

theorem append_diff_perm {α : Type} [DecidableEq α] (sorted remaining s : List α)
    (hs : s.Sublist remaining) :
    ((sorted ++ s) ++ remaining.diff s).Perm (sorted ++ remaining) := by
  rw [List.perm_iff_count]
  intro a
  have := hs.count_le a
  simp only [List.count_append, count_diff]
  omega

theorem respectsFrom_of_forall (c : List String) :
    ∀ (ys : List PyObj) (e : List String),
      (∀ o ∈ ys, ∀ p ∈ o.prerequisites.getD [], p ∈ c ∨ p ∈ e) → RespectsFrom c e ys
  | [], _, _ => trivial
  | o :: rest, e, h => by
    refine ⟨h o (List.mem_cons_self _ _), ?_⟩
    refine respectsFrom_of_forall c rest (e ++ [objKey o]) (fun o2 ho2 p hp => ?_)
    rcases h o2 (List.mem_cons_of_mem _ ho2) p hp with hc | he
    · exact Or.inl hc
    · exact Or.inr (List.mem_append_left _ he)

theorem respectsFrom_append (c : List String) :
    ∀ (xs : List PyObj) (e : List String) (ys : List PyObj),
      RespectsFrom c e xs →
      (∀ o ∈ ys, ∀ p ∈ o.prerequisites.getD [], p ∈ c ∨ p ∈ e ++ xs.map objKey) →
      RespectsFrom c e (xs ++ ys)
  | [], e, ys, _, hys => by
    refine respectsFrom_of_forall c ys e (fun o ho p hp => ?_)
    simpa using hys o ho p hp
  | x :: xs2, e, ys, hxs, hys => by
    refine ⟨hxs.1, ?_⟩
    refine respectsFrom_append c xs2 (e ++ [objKey x]) ys hxs.2 (fun o ho p hp => ?_)
    rcases hys o ho p hp with hc | he
    · exact Or.inl hc
    · refine Or.inr ?_
      simp only [List.map_cons, List.append_assoc] at he ⊢
      simpa using he

theorem respectsFrom_mapIdx (c : List String) :
    ∀ (l : List PyObj) (F : Nat → PyObj → PyObj),
      (∀ i o, (F i o).prerequisites = o.prerequisites ∧ objKey (F i o) = objKey o) →
      ∀ (e : List String), RespectsFrom c e l → RespectsFrom c e (l.mapIdx F)
  | [], _, _, _, _ => trivial
  | a :: as, F, hF, e, h => by
    rw [List.mapIdx_cons]
    refine ⟨?_, ?_⟩
    · rw [(hF 0 a).1]
      exact h.1
    · rw [(hF 0 a).2]
      exact respectsFrom_mapIdx c as (fun i => F (i + 1)) (fun i o => hF (i + 1) o)
        (e ++ [objKey a]) h.2

/-- Core invariant proof: when keys are distinct, prerequisites resolve and
the reference graph is acyclic, the sort loop's output (including an
arbitrary already-respecting prefix) respects prerequisite order; in
particular no round ever stalls and force-admits. -/
theorem topoAux_respects (objs : List PyObj) (completed : List String)
    (hnd : (objs.map objKey).Nodup) (hclosed : ClosedObjectives objs completed)
    (rank : String → Nat)
    (hrank : ∀ o ∈ objs, ∀ p ∈ o.prerequisites.getD [], p ∉ completed → rank p < rank (objKey o)) :
    ∀ (remaining sorted : List PyObj),
      (sorted ++ remaining).Perm objs →
      RespectsFrom completed [] sorted →
      RespectsFrom completed []
        (topoAux (buildObjectiveDependencies objs) completed sorted remaining)
  | [], sorted, _, hsorted => by rw [topoAux]; exact hsorted
  | r0 :: rest, sorted, hperm, hsorted => by
    obtain ⟨omin, homin, hminle⟩ :=
      exists_rank_min (fun o => rank (objKey o)) (r0 :: rest) (by simp)
    have hominObjs : omin ∈ objs := hperm.mem_iff.mp (List.mem_append_right _ homin)
    have hready_omin :
        isReady (buildObjectiveDependencies objs) completed sorted omin = true := by
      rw [isReady, pyGet_buildDeps objs hnd omin hominObjs, List.all_eq_true]
      intro p hp
      rw [Bool.or_eq_true]
      by_cases hpc : p ∈ completed
      · exact Or.inl (by simpa [List.elem_iff] using hpc)
      · rcases hclosed omin hominObjs p hp with hpc2 | ⟨o2, ho2, hid⟩
        · exact absurd hpc2 hpc
        · have hkey2 : objKey o2 = p := by simp [objKey, hid]
          rcases List.mem_append.mp (hperm.mem_iff.mpr ho2) with hs | hr
          · refine Or.inr ?_
            rw [List.any_eq_true]
            exact ⟨o2, hs, by simp [hid]⟩
          · exfalso
            have h1 : rank p < rank (objKey omin) := hrank omin hominObjs p hp hpc
            have h2 : rank (objKey omin) ≤ rank (objKey o2) := hminle o2 hr
            rw [hkey2] at h2
            omega
    have hne : (r0 :: rest).filter
        (isReady (buildObjectiveDependencies objs) completed sorted) ≠ [] :=
      List.ne_nil_of_mem (List.mem_filter.mpr ⟨homin, hready_omin⟩)
    rw [topoAux, if_neg hne]
    have hsub : ((r0 :: rest).filter
        (isReady (buildObjectiveDependencies objs) completed sorted)).Sublist (r0 :: rest) :=
      List.filter_sublist _
    refine topoAux_respects objs completed hnd hclosed rank hrank _ _ ?_ ?_
    · exact (append_diff_perm sorted (r0 :: rest) _ hsub).trans hperm
    · refine respectsFrom_append completed sorted [] _ hsorted (fun o ho p hp => ?_)
      have hmem := List.mem_filter.mp ho
      have hoObjs : o ∈ objs := hperm.mem_iff.mp (List.mem_append_right _ hmem.1)
      have hready := hmem.2
      rw [isReady, pyGet_buildDeps objs hnd o hoObjs, List.all_eq_true] at hready
      rcases Bool.or_eq_true _ _ |>.mp (hready p hp) with hc | hs
      · exact Or.inl (by simpa [List.elem_iff] using hc)
      · rw [List.any_eq_true] at hs
        obtain ⟨s, hsmem, hsid⟩ := hs
        rw [beq_iff_eq] at hsid
        refine Or.inr ?_
        simp only [List.nil_append, List.mem_map]
        exact ⟨s, hsmem, by simp [objKey, hsid]⟩
termination_by remaining => remaining.length
decreasing_by
  exact diff_length_lt _ _ hsub hne

/-- `sequence_with_prerequisites` respects prerequisite order whenever the
objective keys are pairwise distinct, every prerequisite resolves, and the
reference graph is acyclic. -/
theorem sequence_respects (objs : List PyObj) (completed : List String)
    (hnd : (objs.map objKey).Nodup) (hclosed : ClosedObjectives objs completed)
    (hacyc : AcyclicObjectives objs completed) :
    orderingOK (sequenceWithPrerequisites objs completed) completed = true := by
  obtain ⟨rank, hrank⟩ := hacyc
  have h := topoAux_respects objs completed hnd hclosed rank hrank objs [] (by simp) trivial
  rw [orderingOK, orderingOKAux_iff]
  rw [sequenceWithPrerequisites, annotateSequence]
  refine respectsFrom_mapIdx completed
    (topologicalSortWithConstraints objs (buildObjectiveDependencies objs) completed)
    _ ?_ [] h
  intro i o
  exact ⟨rfl, rfl⟩

/-!
### Concrete objectives for claim C1
-/

/-- Objective A of the claim's example: no prerequisites. -/
def exObjA : PyObj := { id := some "A", title := some "Objective A", prerequisites := some [] }

/-- Objective B of the claim's example: prerequisite A. -/
def exObjB : PyObj := { id := some "B", title := some "Objective B", prerequisites := some ["A"] }

/-- Objective C of the claim's example: prerequisites A and B. -/
def exObjC : PyObj :=
  { id := some "C", title := some "Objective C", prerequisites := some ["A", "B"] }

/-- An objective whose only prerequisite, "ghost", names no objective of the
set: the set is acyclic, yet the loop stalls and force-admits it. -/
def cexGhost : PyObj := { id := some "X", prerequisites := some ["ghost"] }

/-- C1 counterexample: the singleton set `[cexGhost]` is acyclic (a rank
function exists) and has pairwise-distinct keys, yet the output of
`sequence_with_prerequisites` places the objective before its prerequisite
"ghost" is satisfied — the prerequisite is neither in the (empty) completed
list nor the identifier of an earlier output objective.  So the claim as
stated — over every acyclic set — is false; resolvability of every
prerequisite is also required. -/
theorem claim_c1_counterexample :
    AcyclicObjectives [cexGhost] [] ∧ ([cexGhost].map objKey).Nodup ∧
    orderingOK (sequenceWithPrerequisites [cexGhost] []) [] = false := by
  refine ⟨⟨fun s => if s = "ghost" then 0 else 1, by decide⟩, by decide, ?_⟩
  simp [sequenceWithPrerequisites, topologicalSortWithConstraints, topoAux, isReady,
    buildObjectiveDependencies, pyGet, annotateSequence, checkPrerequisitesMet, objKey,
    cexGhost, orderingOK, orderingOKAux, List.filter, List.diff]

/-- C1 (amended): for every set of objectives with pairwise-distinct keys
(id, falling back to title), in which every prerequisite of every objective
is either in the supplied completed list or the id of some listed objective,
and whose prerequisite references are acyclic, `sequence_with_prerequisites`
never places an objective before all of its prerequisites are satisfied:
each prerequisite of each output objective is either in the supplied
completed list or is the identifier of an earlier output objective.  In
particular, objectives A (no prerequisites), B (prerequisite A), C
(prerequisites A and B) fed in input order [C, A, B] are returned in order
[A, B, C]. -/
theorem claim_c1_prerequisite_ordering_amended :
    (∀ (objs : List PyObj) (completed : List String),
      (objs.map objKey).Nodup → ClosedObjectives objs completed →
      AcyclicObjectives objs completed →
      orderingOK (sequenceWithPrerequisites objs completed) completed = true) ∧
    (sequenceWithPrerequisites [exObjC, exObjA, exObjB] []).map objKey = ["A", "B", "C"] := by
  refine ⟨fun objs c h1 h2 h3 => sequence_respects objs c h1 h2 h3, ?_⟩
  simp [sequenceWithPrerequisites, topologicalSortWithConstraints, topoAux, isReady,
    buildObjectiveDependencies, pyGet, annotateSequence, checkPrerequisitesMet, objKey,
    exObjA, exObjB, exObjC, List.filter, List.diff]

/-- C1 witness: the amended theorem applied to the concrete A/B/C example,
with its distinct-keys, resolvability and acyclicity hypotheses discharged
there. -/
theorem claim_c1_witness :
    orderingOK (sequenceWithPrerequisites [exObjC, exObjA, exObjB] []) [] = true :=
  claim_c1_prerequisite_ordering_amended.1 [exObjC, exObjA, exObjB] []
    (by decide) (by simp only [ClosedObjectives]; decide)
    ⟨fun s => if s = "A" then 0 else if s = "B" then 1 else 2, by decide⟩

/-!
## User profiles and performance data (`ai_models.py`, `learning_path_service.py`)
-/

/-- The `learning_preferences` dict of a profile (keys the code reads). -/
structure LearnPrefs where
  learningStyle : Option String := none
  timeCommitment : Option Nat := none
  preferredFormats : Option (List String) := none
  learningContext : Option LearningContext := none
  maxDuration : Option Int := none
deriving DecidableEq, Repr

/-- One entry of a profile's `interaction_history`. -/
structure InteractionRec where
  subject : Option String := none
  successRate : Option ℚ := none
  topics : Option (List String) := none
deriving DecidableEq, Repr

/-- `UserProfile` from `ai_models.py` (the fields the embedded code reads).
`learningPreferences = none` models the empty (falsy) dict. -/
structure UserProfileM where
  userId : String
  educationLevel : EducationLevel
  ageRange : Option String := none
  subjects : List String := []
  skillLevels : List (String × DifficultyLevel) := []
  learningPreferences : Option LearnPrefs := none
  goals : List String := []
  interactionHistory : List InteractionRec := []
deriving DecidableEq, Repr

/-- The `performance_data` dict passed to `adapt_path_based_on_performance`. -/
structure PerfData where
  comprehensionScore : Option ℚ := none
  strugglingConcepts : Option (List String) := none
  masteredConcepts : Option (List String) := none
deriving DecidableEq, Repr

/-- The dict `_analyze_performance_patterns` returns. -/
structure PerfAnalysis where
  averageComprehension : ℚ
  strugglingConcepts : List String
  masteredConcepts : List String
  engagementTrend : String
deriving DecidableEq, Repr

/-- One entry of a difficulty progression's `milestones`. -/
structure ProgMilestone where
  objectiveIndex : Nat
  targetLevel : DifficultyLevel
  assessmentRequired : Bool
deriving DecidableEq, Repr

/-- The `last_adjustment` record `_update_difficulty_progression` writes. -/
structure LastAdjustment where
  timestamp : Nat
  adjustment : String
  reason : String
deriving DecidableEq, Repr

/-- A `difficulty_progression` dict; all fields optional so the empty dict
`{}` (every field `none`) is representable. -/
structure Progression where
  startingLevel : Option DifficultyLevel := none
  targetLevel : Option DifficultyLevel := none
  progressionRate : Option String := none
  milestones : Option (List ProgMilestone) := none
  lastAdjustment : Option LastAdjustment := none
deriving DecidableEq, Repr

/-- The `changes` sub-dict of an adaptation record (the three lists are
always created empty by the code). -/
structure AdaptChanges where
  difficultyAdjustment : String
  addedObjectives : List String := []
  removedObjectives : List String := []
  modifiedObjectives : List String := []
deriving DecidableEq, Repr

/-- One entry of a path's `adaptation_history`. -/
structure AdaptationRecord where
  timestamp : Nat
  reason : String
  changes : AdaptChanges
  performanceMetrics : PerfAnalysis
deriving DecidableEq, Repr

/-- The current-path dict taken and returned by
`adapt_path_based_on_performance`: the keys the function reads or writes
(`path.copy()` preserves every other key unchanged, so they are outside the
model). -/
structure PathDict where
  objectives : Option (List PyObj) := none
  difficultyProgression : Option Progression := none
  adaptationHistory : Option (List AdaptationRecord) := none
  updatedAt : Option Nat := none
deriving DecidableEq, Repr

/-- `_analyze_performance_patterns(performance_data)`. -/
def analyzePerformancePatterns (pd : PerfData) : PerfAnalysis :=
  { averageComprehension := pd.comprehensionScore.getD 75,
    strugglingConcepts := pd.strugglingConcepts.getD [],
    masteredConcepts := pd.masteredConcepts.getD [],
    engagementTrend := "stable" }

/-- `_calculate_difficulty_adjustment(performance_analysis, current_progression)`
(the progression argument is accepted and ignored, as in the source). -/
def calculateDifficultyAdjustment (pa : PerfAnalysis) (_cp : Progression) : String :=
  if pa.averageComprehension < 60 then "decrease"
  else if pa.averageComprehension > 90 then "increase"
  else "maintain"

/-- `any(concept in obj.get('topics', []) for concept in concepts)`. -/
def touchesConcepts (concepts : List String) (o : PyObj) : Bool :=
  concepts.any (fun c => (o.topics.getD []).contains c)

/-- Binary digit count (`n.bit_length()`), written with a structural fuel
(`fuel ≥ n` suffices, since the argument at least halves each step). -/
def bitsAux : Nat → Nat → Nat
  | 0, _ => 0
  | fuel + 1, n => if n = 0 then 0 else bitsAux fuel (n / 2) + 1

/-- Binary digit count of `n` (`bits 0 = 0`, `bits 1 = 1`, `bits 90 = 7`). -/
def bits (n : Nat) : Nat := bitsAux n n

/-- Round `p / 2^s` to the nearest integer, ties to even — the IEEE-754
rounding step. -/
def roundEvenShift (p s : Nat) : Nat :=
  if s = 0 then p
  else
    let d := p / 2 ^ s
    let r := p % 2 ^ s
    let half := 2 ^ (s - 1)
    if r < half then d
    else if half < r then d + 1
    else if d % 2 = 0 then d else d + 1

/-- `float(h)` for a non-negative Python int: round `h` to 53 significant
bits (exact below `2^53`). -/
def fl53 (h : Nat) : Nat :=
  if bits h ≤ 53 then h
  else roundEvenShift h (bits h - 53) * 2 ^ (bits h - 53)

/-- `int(h * c)` for a Python int `h ≥ 0` and a positive double constant
`c = cnum / 2^53` with `cnum < 2^54`, computed as CPython does: convert
`h` to binary64, multiply with correct rounding (round the exact product
`fl53 h * cnum / 2^53` to 53 significant bits, ties to even), then
truncate toward zero.  (Overflow to infinity is not modelled.) -/
def pyIntTimesConst (cnum h : Nat) : Nat :=
  let p := fl53 h * cnum
  let rp := if bits p ≤ 53 then p
    else roundEvenShift p (bits p - 53) * 2 ^ (bits p - 53)
  rp / 2 ^ 53

/-- The binary64 value `1.5`, scaled by `2^53` (exactly representable). -/
def c15 : Nat := 13510798882111488

/-- The binary64 value nearest `0.7`, scaled by `2^53`:
`0.7 * 2^53 = 6305039478318694.4` rounds down, so `double(0.7) < 0.7`. -/
def c07 : Nat := 6305039478318694

/-- `int(h * 1.5)` on a Python int `h ≥ 0`, in binary64 arithmetic. -/
def intTimes15 (h : Nat) : Nat := pyIntTimesConst c15 h

/-- `int(h * 0.7)` on a Python int `h ≥ 0`, in binary64 arithmetic
(`intTimes07 90 = 62`, one below `⌊0.7·90⌋ = 63`). -/
def intTimes07 (h : Nat) : Nat := pyIntTimesConst c07 h

/-- `_adapt_objectives_for_performance`: `int(h * 1.5)` hours and a
`remedial_content` flag for struggling topics; `max(1, int(h * 0.7))`
hours (computed from the objective's original hours, so it overwrites the
×1.5 value when both apply) and an `accelerated` flag for mastered
topics.  Both multiplications are bit-exact binary64 (`intTimes15`,
`intTimes07`).  The adjustment argument is accepted and ignored, as in
the source. -/
def adaptObjectivesForPerformance (objs : List PyObj)
    (struggling mastered : List String) (_adjustment : String) : List PyObj :=
  objs.map (fun o =>
    let o1 := if touchesConcepts struggling o then
        { o with remedialContent := some true,
                 estimatedHours := some (intTimes15 (o.estimatedHours.getD 2)) }
      else o
    if touchesConcepts mastered o then
      { o1 with accelerated := some true,
                estimatedHours := some (max 1 (intTimes07 (o.estimatedHours.getD 2))) }
    else o1)

/-- `_update_difficulty_progression` (the rendering of the comprehension
percentage inside the reason string uses `toString` on the exact rational in
place of Python float formatting). -/
def updateDifficultyProgression (cp : Progression) (adjustment : String)
    (pa : PerfAnalysis) (now : Nat) : Progression :=
  let adj : LastAdjustment :=
    { timestamp := now
      adjustment := adjustment
      reason := "Performance analysis: " ++ toString pa.averageComprehension
        ++ "% comprehension" }
  { cp with lastAdjustment := some adj }

/-- `adapt_path_based_on_performance(current_path, performance_data,
user_profile)` (the profile is only logged by the source; `now` stands for
`datetime.now()`). -/
def adaptPathBasedOnPerformance (currentPath : PathDict) (pd : PerfData)
    (_profile : UserProfileM) (now : Nat) : PathDict :=
  let pa := analyzePerformancePatterns pd
  let adjustment := calculateDifficultyAdjustment pa (currentPath.difficultyProgression.getD {})
  let adapted := adaptObjectivesForPerformance (currentPath.objectives.getD [])
    pa.strugglingConcepts pa.masteredConcepts adjustment
  let updatedProg := updateDifficultyProgression
    (currentPath.difficultyProgression.getD {}) adjustment pa now
  let record : AdaptationRecord :=
    { timestamp := now
      reason := "performance_based_adaptation"
      changes := { difficultyAdjustment := adjustment }
      performanceMetrics := pa }
  { currentPath with
    objectives := some adapted,
    difficultyProgression := some updatedProg,
    adaptationHistory := some ((currentPath.adaptationHistory.getD []) ++ [record]),
    updatedAt := some now }

/-- An objective whose single topic is both a struggling and a mastered
concept of the performance data below. -/
def c8Obj : PyObj := { topics := some ["algebra"], estimatedHours := some 2 }

/-- A current path holding just `c8Obj`. -/
def c8Path : PathDict := { objectives := some [c8Obj] }

/-- Performance data listing "algebra" both as struggling and as mastered. -/
def c8Perf : PerfData :=
  { strugglingConcepts := some ["algebra"], masteredConcepts := some ["algebra"] }

/-- An arbitrary profile for the adaptation call. -/
def c8Prof : UserProfileM := { userId := "u1", educationLevel := .k12 }

/-- C8 counterexample: `c8Obj` (2 estimated hours) touches the struggling
concepts, so the claim as stated promises hours ×1.5 = 3; but its topic is
also mastered, and the code computes the mastered adjustment from the
objective's original hours, overwriting the remedial value: the adapted
objective carries `max(1, int(2*0.7)) = 1` hour, not 3. -/
theorem claim_c8_counterexample :
    touchesConcepts ["algebra"] c8Obj = true ∧
    ((adaptPathBasedOnPerformance c8Path c8Perf c8Prof 0).objectives.getD []).map
      (fun o => o.estimatedHours) = [some 1] ∧
    ¬ ((adaptPathBasedOnPerformance c8Path c8Perf c8Prof 0).objectives.getD []).map
      (fun o => o.estimatedHours) = [some 3] := by
  decide

/-- C8 (amended): for every current path, performance data and profile,
`adapt_path_based_on_performance` classifies the average comprehension as
"decrease" below 60, "increase" above 90 and "maintain" otherwise, and
appends exactly one adaptation record carrying that classification, with
all prior history preserved as a prefix; every objective whose topics meet
`struggling_concepts` but not `mastered_concepts` gets estimated hours
`int(h * 1.5)` and a `remedial_content` flag; every objective whose
topics meet `mastered_concepts` gets estimated hours
`max(1, int(h * 0.7))` of its original hours `h` and an `accelerated`
flag (when its topics meet both, both flags are set and the ×0.7 hours
overwrite the ×1.5 hours); objectives touching neither are unchanged.
The hour multiplications are binary64, not exact decimal: ×1.5 agrees
with `3h/2` at small hours (`int(2 * 1.5) = 3`), while ×0.7 can land one
below the exact value, e.g. `int(90 * 0.7) = 62` though
`⌊7·90/10⌋ = 63` (and `int(10 * 0.7) = 7` only thanks to ties-to-even). -/
theorem claim_c8_adaptation_amended :
    ∀ (path : PathDict) (pd : PerfData) (prof : UserProfileM) (now : Nat),
      (adaptPathBasedOnPerformance path pd prof now).adaptationHistory =
        some ((path.adaptationHistory.getD []) ++
          [{ timestamp := now
             reason := "performance_based_adaptation"
             changes := { difficultyAdjustment :=
               if pd.comprehensionScore.getD 75 < 60 then "decrease"
               else if pd.comprehensionScore.getD 75 > 90 then "increase"
               else "maintain" }
             performanceMetrics := analyzePerformancePatterns pd }]) ∧
      ((adaptPathBasedOnPerformance path pd prof now).objectives.getD []).length =
        (path.objectives.getD []).length ∧
      (intTimes15 2 = 3 ∧ intTimes07 2 = 1 ∧ intTimes07 10 = 7 ∧
        intTimes07 90 = 62 ∧ 7 * 90 / 10 = 63) ∧
      ∀ i, ∀ hi : i < (path.objectives.getD []).length,
        ∀ hi2 : i < ((adaptPathBasedOnPerformance path pd prof now).objectives.getD []).length,
        (let o := (path.objectives.getD []).get ⟨i, hi⟩
         let o2 := ((adaptPathBasedOnPerformance path pd prof now).objectives.getD []).get ⟨i, hi2⟩
         let strug := touchesConcepts (pd.strugglingConcepts.getD []) o
         let mast := touchesConcepts (pd.masteredConcepts.getD []) o
         let h := o.estimatedHours.getD 2
         (strug = true → mast = false →
            o2 = { o with remedialContent := some true,
                          estimatedHours := some (intTimes15 h) }) ∧
         (strug = true → mast = true →
            o2 = { o with remedialContent := some true, accelerated := some true,
                          estimatedHours := some (max 1 (intTimes07 h)) }) ∧
         (strug = false → mast = true →
            o2 = { o with accelerated := some true,
                          estimatedHours := some (max 1 (intTimes07 h)) }) ∧
         (strug = false → mast = false → o2 = o)) := by
  intro path pd prof now
  refine ⟨?_, ?_, by decide, ?_⟩
  · simp only [adaptPathBasedOnPerformance, analyzePerformancePatterns,
      calculateDifficultyAdjustment, updateDifficultyProgression]
  · simp [adaptPathBasedOnPerformance, adaptObjectivesForPerformance]
  · intro i hi hi2
    have hobj : (adaptPathBasedOnPerformance path pd prof now).objectives.getD [] =
        (path.objectives.getD []).map (fun o =>
          let o1 := if touchesConcepts (pd.strugglingConcepts.getD []) o then
              { o with remedialContent := some true,
                       estimatedHours := some (intTimes15 (o.estimatedHours.getD 2)) }
            else o
          if touchesConcepts (pd.masteredConcepts.getD []) o then
            { o1 with accelerated := some true,
                      estimatedHours := some (max 1 (intTimes07 (o.estimatedHours.getD 2))) }
          else o1) := by
      simp [adaptPathBasedOnPerformance, adaptObjectivesForPerformance,
        analyzePerformancePatterns, touchesConcepts]
    refine ⟨?_, ?_, ?_, ?_⟩
    all_goals
      intro hs hm
      simp only [List.get_eq_getElem] at hs hm ⊢
      simp only [hobj, List.getElem_map]
      simp [hs, hm]

/-!
## Personalized path generation (`learning_path_service.py`)
-/

/-- `LearningStyle` enum from `ai_models.py`. -/
inductive LearningStyle where
  | visual | auditory | kinesthetic | reading
deriving DecidableEq, Repr

/-- `.value` of a `LearningStyle` (str-enum payload). -/
def LearningStyle.val : LearningStyle → String
  | .visual => "visual"
  | .auditory => "auditory"
  | .kinesthetic => "kinesthetic"
  | .reading => "reading"

/-- `LearningPathRequest` from `ai_models.py` (its validator requires
`1 <= time_commitment <= 40`). -/
structure LearningPathRequest where
  userId : String
  subject : String
  educationLevel : EducationLevel
  currentLevel : DifficultyLevel
  learningGoals : List String
  timeCommitment : Nat
  learningStyle : LearningStyle
  prerequisites : List String := []
deriving DecidableEq, Repr

/-- The dict `_assess_current_skills` returns. -/
structure SkillAssessment where
  currentLevel : DifficultyLevel
  knowledgeGaps : List String
  strengths : List String
  confidenceScore : ℚ
deriving DecidableEq, Repr

/-- One milestone dict from `_create_milestones`. -/
structure Milestone where
  id : String
  title : String
  description : String
  objectives : List String
  completionCriteria : List String
  estimatedCompletion : Nat
deriving DecidableEq, Repr

/-- The `performance_thresholds` sub-dict of the adaptation strategy. -/
structure PerfThresholds where
  struggling : ℚ
  mastery : ℚ
  optimalRange : List ℚ
deriving DecidableEq, Repr

/-- The dict `_create_adaptation_strategy` returns. -/
structure AdaptationStrategy where
  performanceThresholds : PerfThresholds
  adaptationTriggers : List String
  adaptationMethods : List String
deriving DecidableEq, Repr

/-- The `request_metadata` dict `generate_algorithmic_learning_path` adds. -/
structure ReqMeta where
  educationLevel : EducationLevel
  learningStyle : String
  currentLevel : DifficultyLevel
deriving DecidableEq, Repr

/-- A learning-path result dict as the orchestrator returns it: the union of
the keys written by `generate_personalized_path`,
`generate_algorithmic_learning_path`, `_get_ai_enhanced_path` and
`_enhance_path_with_algorithms` (provider responses are external and are
modelled as already-parsed values of this shape). -/
structure PathOut where
  pathId : Option String := none
  userId : Option String := none
  subject : Option String := none
  objectives : List PyObj := []
  totalEstimatedHours : Option Nat := none
  difficultyProgression : Option Progression := none
  milestones : Option (List Milestone) := none
  adaptationStrategy : Option AdaptationStrategy := none
  createdAt : Option Nat := none
  source : Option String := none
  aiProvider : Option String := none
  generationMethod : Option String := none
  requestMetadata : Option ReqMeta := none
  educationLevel : Option EducationLevel := none
  fallbackUsed : Bool := false
  enhancementApplied : Bool := false
  enhancementMethods : List String := []
  originalAiObjectivesCount : Option Nat := none
  enhancedObjectivesCount : Option Nat := none
deriving DecidableEq, Repr

/-- `topic.lower().replace(" ", "_")`. -/
def lowerReplaceSpace (s : String) : String := (pyLower s).replace " " "_"

/-- `_load_subject_taxonomies()`. -/
def subjectTaxonomies : List (String × List (EducationLevel × List (String × List String))) :=
  [("mathematics",
    [(.k12, [("arithmetic", ["addition", "subtraction", "multiplication", "division"]),
             ("algebra", ["variables", "equations", "functions", "graphing"]),
             ("geometry", ["shapes", "area", "volume", "proofs"]),
             ("statistics", ["data_analysis", "probability", "distributions"])]),
     (.college, [("calculus", ["limits", "derivatives", "integrals", "series"]),
                 ("linear_algebra", ["vectors", "matrices", "eigenvalues", "transformations"]),
                 ("discrete_math", ["logic", "sets", "combinatorics", "graph_theory"])])]),
   ("computer_science",
    [(.k12, [("programming_basics", ["variables", "loops", "conditionals", "functions"]),
             ("problem_solving", ["algorithms", "debugging", "testing", "documentation"])]),
     (.college, [("data_structures", ["arrays", "lists", "trees", "graphs", "hash_tables"]),
                 ("algorithms", ["sorting", "searching", "dynamic_programming", "greedy"]),
                 ("software_engineering", ["design_patterns", "testing", "version_control"])])])]

/-- `_find_matching_objectives(goal, level_content)`. -/
def findMatchingObjectives (goal : String) (levelContent : List (String × List String)) :
    List PyObj :=
  levelContent.bind (fun ct =>
    if ct.2.any (fun t => strIn (pyLower t) (pyLower goal) || strIn (pyLower goal) (pyLower t))
    then ct.2.map (fun t =>
      { id := some ("obj_" ++ ct.1 ++ "_" ++ t)
        title := some ("Learn " ++ t)
        description := some ("Master " ++ t ++ " concepts and applications")
        difficulty := some .beginner
        topics := some [t]
        category := some ct.1
        skillsGained := some [lowerReplaceSpace t] })
    else [])

/-- `_get_default_objectives(subject, education_level)`. -/
def getDefaultObjectives (subject : String) (_el : EducationLevel) : List PyObj :=
  [{ id := some ("default_obj_1_" ++ subject)
     title := some ("Introduction to " ++ subject)
     description := some ("Learn fundamental concepts of " ++ subject)
     difficulty := some .beginner
     estimatedHours := some 4
     skillsGained := some [subject ++ "_fundamentals"] },
   { id := some ("default_obj_2_" ++ subject)
     title := some ("Intermediate " ++ subject)
     description := some ("Build on " ++ subject ++ " fundamentals")
     difficulty := some .intermediate
     estimatedHours := some 6
     prerequisites := some ["default_obj_1_" ++ subject]
     skillsGained := some [subject ++ "_intermediate"] }]

/-- `_map_goals_to_objectives(learning_goals, subject, education_level)`. -/
def mapGoalsToObjectives (goals : List String) (subject : String) (el : EducationLevel) :
    List PyObj :=
  let taxonomy := pyGet subjectTaxonomies subject []
  let levelContent := pyGet taxonomy el []
  let objectives := goals.bind (fun g => findMatchingObjectives g levelContent)
  if objectives = [] then getDefaultObjectives subject el else objectives

/-- `_calculate_confidence_score(interaction_history, subject)`. -/
def calculateConfidenceScore (history : List InteractionRec) (subject : String) : ℚ :=
  let subjInter := history.filter (fun r => r.subject == some subject)
  if subjInter = [] then 1/2
  else
    let recent := (subjInter.drop (subjInter.length - 5)).map (fun r => r.successRate.getD (1/2))
    recent.sum / recent.length

/-- `_assess_current_skills(user_profile, subject)` (Python's unordered
`list(set(...))` is modelled as order-preserving deduplication). -/
def assessCurrentSkills (profile : UserProfileM) (subject : String) : SkillAssessment :=
  let recent := profile.interactionHistory.drop (profile.interactionHistory.length - 10)
  let gaps := (recent.bind (fun r =>
    if r.subject == some subject ∧ r.successRate.getD 0 < 7/10 then r.topics.getD [] else [])).dedup
  let strengths := (recent.bind (fun r =>
    if r.subject == some subject ∧ ¬ r.successRate.getD 0 < 7/10 ∧ r.successRate.getD 0 > 9/10
    then r.topics.getD [] else [])).dedup
  { currentLevel := pyGet profile.skillLevels subject .beginner
    knowledgeGaps := gaps
    strengths := strengths
    confidenceScore := calculateConfidenceScore profile.interactionHistory subject }

/-- `_create_remedial_objectives(knowledge_gaps, education_level)`. -/
def createRemedialObjectives (gaps : List String) (_el : EducationLevel) : List PyObj :=
  gaps.enum.map (fun ig =>
    { id := some ("remedial_obj_" ++ toString (ig.1 + 1))
      title := some ("Review " ++ ig.2)
      description := some ("Strengthen understanding of " ++ ig.2)
      difficulty := some .beginner
      estimatedHours := some 2
      remedial := some true
      topics := some [ig.2]
      skillsGained := some [lowerReplaceSpace ig.2] })

/-- `_sequence_objectives(objectives, skill_assessment, education_level)`. -/
def sequenceObjectivesLP (objs : List PyObj) (assessment : SkillAssessment)
    (el : EducationLevel) : List PyObj :=
  let filtered := objs.filter (fun o =>
    !(assessment.strengths.any (fun s => (o.topics.getD []).contains s)))
  let remedial := createRemedialObjectives assessment.knowledgeGaps el
  sequenceWithPrerequisites (remedial ++ filtered) []

/-- `_adapt_for_learning_style(objectives, learning_style, preferred_formats)`. -/
def adaptForLearningStyle (objs : List PyObj) (style : String)
    (preferredFormats : List String) : List PyObj :=
  objs.map (fun o =>
    let fm := if style = "visual" then ["video", "infographic", "diagram"]
      else if style = "auditory" then ["audio", "podcast", "lecture"]
      else if style = "kinesthetic" then ["interactive", "simulation", "hands_on"]
      else ["article", "document", "text"]
    let fm2 := if preferredFormats ≠ [] then fm.filter (fun f => preferredFormats.contains f)
      else fm
    { o with recommendedFormats := some fm2 })

/-- `_calculate_time_estimates(objectives, time_commitment)`:
`int(base_hours * (0.5*len(skills)+1)) = base*(len+2)/2` exactly, and
`estimated_weeks = max(1, hours // time_commitment)`. -/
def calculateTimeEstimates (objs : List PyObj) (tc : Nat) : List PyObj :=
  objs.map (fun o =>
    let base : Nat := match o.difficulty.getD .beginner with
      | .beginner => 2
      | .intermediate => 3
      | .advanced => 4
    let est := base * ((o.skillsGained.getD []).length + 2) / 2
    { o with estimatedHours := some est, estimatedWeeks := some (max 1 (est / tc)) })

/-- One step of `_create_difficulty_progression`'s loop: every third
objective (index > 0, divisible by 3) bumps the level one stage and records
a progression milestone at that level. -/
def progressionStep (acc : DifficultyLevel × List ProgMilestone) (i : Nat) :
    DifficultyLevel × List ProgMilestone :=
  if i > 0 ∧ i % 3 = 0 then
    let cur2 : DifficultyLevel := match acc.1 with
      | .beginner => .intermediate
      | .intermediate => .advanced
      | .advanced => .advanced
    (cur2, acc.2 ++ [{ objectiveIndex := i, targetLevel := cur2, assessmentRequired := true }])
  else acc

/-- `_create_difficulty_progression(objectives, starting_level)`. -/
def createDifficultyProgression (objs : List PyObj) (startingLevel : DifficultyLevel) :
    Progression :=
  let ms := ((List.range objs.length).foldl progressionStep (startingLevel, [])).2
  { startingLevel := some startingLevel
    targetLevel := some .advanced
    progressionRate := some "adaptive"
    milestones := some ms }

/-- The `for i in range(0, len(objectives), 3)` chunking loop of
`_create_milestones`. -/
def createMilestonesAux (total : Nat) : Nat → List PyObj → List Milestone
  | _, [] => []
  | i, o0 :: orest =>
    let chunk := (o0 :: orest).take 3
    let m : Milestone :=
      { id := "milestone_" ++ toString (i / 3 + 1)
        title := "Milestone " ++ toString (i / 3 + 1)
        description := "Complete objectives " ++ toString (i + 1) ++ "-"
          ++ toString (min (i + 3) total)
        objectives := chunk.enum.map (fun jo => jo.2.id.getD ("obj_" ++ toString jo.1))
        completionCriteria := ["Complete all assigned objectives",
          "Pass milestone assessment with 80% or higher",
          "Demonstrate practical application of concepts"]
        estimatedCompletion := (chunk.map (fun o => o.estimatedHours.getD 2)).sum }
    m :: createMilestonesAux total (i + 3) ((o0 :: orest).drop 3)
termination_by _ l => l.length
decreasing_by simp; omega

/-- `_create_milestones(objectives)`. -/
def createMilestones (objs : List PyObj) : List Milestone :=
  createMilestonesAux objs.length 0 objs

/-- `_create_adaptation_strategy(user_profile)` (static content). -/
def createAdaptationStrategy (_profile : UserProfileM) : AdaptationStrategy :=
  { performanceThresholds :=
      { struggling := 6/10
        mastery := 9/10
        optimalRange := [7/10, 85/100] }
    adaptationTriggers := ["consecutive_low_performance", "rapid_mastery",
      "engagement_drop", "time_constraint_changes"]
    adaptationMethods := ["difficulty_adjustment", "content_format_change",
      "prerequisite_reinforcement", "advanced_content_introduction"] }

/-- `generate_personalized_path(user_profile, subject, learning_goals,
time_commitment)`; `now` stands for `datetime.now().timestamp()`. -/
def generatePersonalizedPath (profile : UserProfileM) (subject : String)
    (learningGoals : List String) (timeCommitment : Nat) (now : Nat) : PathOut :=
  let skillAssessment := assessCurrentSkills profile subject
  let mapped := mapGoalsToObjectives learningGoals subject profile.educationLevel
  let sequenced := sequenceObjectivesLP mapped skillAssessment profile.educationLevel
  let style := (profile.learningPreferences.bind (fun lp => lp.learningStyle)).getD "visual"
  let preferred := (profile.learningPreferences.bind (fun lp => lp.preferredFormats)).getD
    ["video", "interactive"]
  let adapted := adaptForLearningStyle sequenced style preferred
  let timed := calculateTimeEstimates adapted timeCommitment
  let progression := createDifficultyProgression timed (pyGet profile.skillLevels subject .beginner)
  { pathId := some ("path_" ++ profile.userId ++ "_" ++ subject ++ "_" ++ toString now)
    userId := some profile.userId
    subject := some subject
    objectives := timed
    totalEstimatedHours := some ((timed.map (fun o => o.estimatedHours.getD 2)).sum)
    difficultyProgression := some progression
    milestones := some (createMilestones timed)
    adaptationStrategy := some (createAdaptationStrategy profile)
    createdAt := some now
    source := some "algorithm_generated" }

/-!
## Orchestrator, learning-path side (`ai_service.py`)
-/

/-- `AIProvider` enum from `ai_service.py`. -/
inductive AIProvider where
  | openai | gemini
deriving DecidableEq, Repr

/-- `.value` of an `AIProvider`. -/
def AIProvider.val : AIProvider → String
  | .openai => "openai"
  | .gemini => "gemini"

/-- `AIProvider.GEMINI if active_provider == AIProvider.OPENAI else AIProvider.OPENAI`. -/
def otherProvider : AIProvider → AIProvider
  | .openai => .gemini
  | .gemini => .openai

/-- `_convert_request_to_profile(request)`. -/
def convertRequestToProfile (req : LearningPathRequest) : UserProfileM :=
  { userId := req.userId
    educationLevel := req.educationLevel
    subjects := [req.subject]
    skillLevels := [(req.subject, req.currentLevel)]
    learningPreferences := some
      { learningStyle := some req.learningStyle.val
        timeCommitment := some req.timeCommitment
        preferredFormats := some ["video", "interactive", "article"] }
    goals := req.learningGoals
    interactionHistory := [] }

/-- `generate_algorithmic_learning_path(request)` (its handler arm, which
degrades to `create_fallback_path`, is unreachable in the total model). -/
def generateAlgorithmicLearningPath (req : LearningPathRequest) (now : Nat) : PathOut :=
  let prof := convertRequestToProfile req
  let result := generatePersonalizedPath prof req.subject req.learningGoals req.timeCommitment now
  { result with
    aiProvider := some "algorithmic"
    generationMethod := some "pure_algorithm"
    requestMetadata := some
      { educationLevel := req.educationLevel
        learningStyle := req.learningStyle.val
        currentLevel := req.currentLevel } }

/-- `_standardize_objectives(objectives)` on dict-shaped objectives (the
only shape a provider value takes in this model): ensure `id`, `title` and
`difficulty` keys exist. -/
def standardizeObjectives (objs : List PyObj) : List PyObj :=
  objs.enum.map (fun io =>
    let o1 := if io.2.id.isSome then io.2 else { io.2 with id := some ("obj_" ++ toString (io.1 + 1)) }
    let o2 := if o1.title.isSome then o1
      else { o1 with title := some ("Learning Objective " ++ toString (io.1 + 1)) }
    if o2.difficulty.isSome then o2 else { o2 with difficulty := some .beginner })

/-- `_enhance_path_with_algorithms(ai_result, request)`. -/
def enhancePathWithAlgorithms (aiResult : PathOut) (_req : LearningPathRequest) : PathOut :=
  let standardized := standardizeObjectives aiResult.objectives
  let sequenced := sequenceWithPrerequisites standardized []
  { aiResult with
    objectives := sequenced
    enhancementApplied := true
    enhancementMethods := ["prerequisite_sequencing", "algorithmic_optimization"]
    originalAiObjectivesCount := some aiResult.objectives.length
    enhancedObjectivesCount := some sequenced.length }

/-- Dispatch one provider call for learning paths. -/
def callPathProvider (og gg : LearningPathRequest → Except Unit PathOut)
    (p : AIProvider) (req : LearningPathRequest) : Except Unit PathOut :=
  match p with
  | .openai => og req
  | .gemini => gg req

/-- `_get_ai_enhanced_path(request, provider)`: try the active provider,
tag its result; on failure and with fallbacks enabled, try the other
provider once, tagging `fallback_used`; `none` models returning `None`. -/
def getAiEnhancedPath (og gg : LearningPathRequest → Except Unit PathOut)
    (fallbacks : Bool) (cur : AIProvider) (override : Option AIProvider)
    (req : LearningPathRequest) : Option PathOut :=
  let active := override.getD cur
  match callPathProvider og gg active req with
  | .ok r => some { r with aiProvider := some active.val }
  | .error _ =>
    if fallbacks then
      match callPathProvider og gg (otherProvider active) req with
      | .ok r => some { r with aiProvider := some (otherProvider active).val,
                               fallbackUsed := true }
      | .error _ => none
    else none

/-- `generate_learning_path(request, provider)`: enhance a non-fallback
provider result algorithmically, otherwise fall through to the pure
algorithmic generator. -/
def generateLearningPath (og gg : LearningPathRequest → Except Unit PathOut)
    (fallbacks : Bool) (cur : AIProvider) (override : Option AIProvider)
    (req : LearningPathRequest) (now : Nat) : PathOut :=
  match getAiEnhancedPath og gg fallbacks cur override req with
  | some r => if !r.fallbackUsed then enhancePathWithAlgorithms r req
      else generateAlgorithmicLearningPath req now
  | none => generateAlgorithmicLearningPath req now

theorem length_sequenceWithPrerequisites (l : List PyObj) (c : List String) :
    (sequenceWithPrerequisites l c).length = l.length := by
  rw [sequenceWithPrerequisites, annotateSequence, List.length_mapIdx]
  have := (topoAux_perm (buildObjectiveDependencies l) c l []).length_eq
  simpa [topologicalSortWithConstraints] using this

theorem mapGoalsToObjectives_ne_nil (g : List String) (s : String) (el : EducationLevel) :
    mapGoalsToObjectives g s el ≠ [] := by
  rw [mapGoalsToObjectives]
  split
  · simp [getDefaultObjectives]
  · next h => exact h

theorem generateAlgorithmic_markers (req : LearningPathRequest) (now : Nat) :
    (generateAlgorithmicLearningPath req now).objectives ≠ [] ∧
    (generateAlgorithmicLearningPath req now).source = some "algorithm_generated" ∧
    (generateAlgorithmicLearningPath req now).aiProvider = some "algorithmic" := by
  refine ⟨?_, by simp [generateAlgorithmicLearningPath, generatePersonalizedPath], by rfl⟩
  have hobj : (generateAlgorithmicLearningPath req now).objectives =
      calculateTimeEstimates (adaptForLearningStyle
        (sequenceObjectivesLP
          (mapGoalsToObjectives req.learningGoals req.subject req.educationLevel)
          (assessCurrentSkills (convertRequestToProfile req) req.subject)
          req.educationLevel)
        req.learningStyle.val ["video", "interactive", "article"])
        req.timeCommitment := by
    simp [generateAlgorithmicLearningPath, generatePersonalizedPath, convertRequestToProfile]
  have hassess : assessCurrentSkills (convertRequestToProfile req) req.subject =
      { currentLevel := pyGet [(req.subject, req.currentLevel)] req.subject .beginner
        knowledgeGaps := []
        strengths := []
        confidenceScore := 1/2 } := by
    simp [assessCurrentSkills, convertRequestToProfile, calculateConfidenceScore]
  have hseq : (sequenceObjectivesLP
      (mapGoalsToObjectives req.learningGoals req.subject req.educationLevel)
      (assessCurrentSkills (convertRequestToProfile req) req.subject)
      req.educationLevel).length =
      (mapGoalsToObjectives req.learningGoals req.subject req.educationLevel).length := by
    rw [hassess, sequenceObjectivesLP]
    simp only [createRemedialObjectives, List.enum_nil, List.map_nil, List.nil_append,
      List.any_nil, Bool.not_false, List.filter_true]
    exact length_sequenceWithPrerequisites _ _
  rw [hobj]
  intro hcon
  have h1 : (calculateTimeEstimates (adaptForLearningStyle
      (sequenceObjectivesLP
        (mapGoalsToObjectives req.learningGoals req.subject req.educationLevel)
        (assessCurrentSkills (convertRequestToProfile req) req.subject)
        req.educationLevel)
      req.learningStyle.val ["video", "interactive", "article"]) req.timeCommitment).length = 0 := by
    rw [hcon]; rfl
  rw [calculateTimeEstimates, List.length_map, adaptForLearningStyle, List.length_map,
    hseq] at h1
  exact mapGoalsToObjectives_ne_nil req.learningGoals req.subject req.educationLevel
    (List.length_eq_zero.mp h1)

theorem generateLearningPath_bothFail (og gg : LearningPathRequest → Except Unit PathOut)
    (hog : ∀ r, og r = .error ()) (hgg : ∀ r, gg r = .error ())
    (cur : AIProvider) (override : Option AIProvider) (req : LearningPathRequest) (now : Nat) :
    generateLearningPath og gg true cur override req now =
      generateAlgorithmicLearningPath req now := by
  rw [generateLearningPath, getAiEnhancedPath]
  cases h : override.getD cur <;>
    simp [callPathProvider, hog, hgg, otherProvider]

/-!
## Content recommendation engine (`content_recommendation_service.py`)

Scores are exact rationals; the cosine-similarity function (which needs a
real square root, see `cosineSimilarity` below) enters the pipeline as an
explicit parameter `simFn`, the boundary at which the source factors
`_calculate_cosine_similarity`.  Python's salted string hash enters as a
parameter `h`.
-/

/-- `RecommendationStrategy` enum. -/
inductive RecommendationStrategy where
  | vector_similarity | collaborative_filtering | learning_style_based | hybrid
deriving DecidableEq, Repr

/-- `RecommendationStrategy(s)` — the str-enum constructor, `none` for a
`ValueError`. -/
def recommendationStrategyOf? (s : String) : Option RecommendationStrategy :=
  if s = "vector_similarity" then some .vector_similarity
  else if s = "collaborative_filtering" then some .collaborative_filtering
  else if s = "learning_style_based" then some .learning_style_based
  else if s = "hybrid" then some .hybrid
  else none

/-- The metadata dict attached to content items (the keys the code reads
or writes). -/
structure ContentMeta where
  educationLevel : Option EducationLevel := none
  learningContext : Option LearningContext := none
  verified : Bool := false
  expertReviewed : Bool := false
deriving DecidableEq, Repr

/-- `ContentItem` from `ai_models.py`; `metadata = none` models the empty
(falsy) dict. -/
structure ContentItem where
  contentId : String
  title : String
  description : String
  subject : String
  topics : List String := []
  difficulty : DifficultyLevel
  format : ContentFormat
  durationMinutes : Int
  source : String
  url : Option String := none
  embedding : Option (List ℚ) := none
  metadata : Option ContentMeta := none
deriving DecidableEq, Repr

/-- `ContentRecommendation` from `ai_models.py`. -/
structure ContentRec where
  contentId : String
  title : String
  description : String
  url : Option String := none
  difficulty : DifficultyLevel
  format : ContentFormat
  durationMinutes : Int
  topics : List String := []
  source : String
  relevanceScore : ℚ
  qualityScore : ℚ
deriving DecidableEq, Repr

/-- `ContentRecommendationRequest` from `ai_models.py`. -/
structure ContentRecommendationRequest where
  userId : String
  currentTopic : String
  educationLevel : EducationLevel
  skillLevel : DifficultyLevel
  learningContext : LearningContext
  preferredFormats : List ContentFormat
  maxDuration : Option Int := some 60
  excludeContent : List String := []
deriving DecidableEq, Repr

/-- The engine's mutable in-memory state (embedding cache, user-content
interaction matrix, peer success rates). -/
structure CREngineState where
  contentEmbeddings : List (String × List ℚ) := []
  userInteractionMatrix : List (String × List (String × ℚ)) := []
  peerSuccessRates : List (String × ℚ) := []
deriving DecidableEq, Repr

/-- The state after `initialize()` (`_initialize_interaction_matrix` and
`_load_peer_success_rates` sample data; empty embedding cache). -/
def defaultEngineState : CREngineState :=
  { contentEmbeddings := []
    userInteractionMatrix :=
      [("user_1", [("content_math_1", 8/10), ("content_science_1", 6/10)]),
       ("user_2", [("content_math_1", 9/10), ("content_programming_1", 7/10)]),
       ("user_3", [("content_science_1", 7/10), ("content_history_1", 8/10)])]
    peerSuccessRates :=
      [("content_math_1", 85/100), ("content_science_1", 78/100),
       ("content_programming_1", 82/100), ("content_history_1", 75/100)] }

/-- `update_user_interaction(user_id, content_id, interaction_score)`. -/
def updateUserInteraction (st : CREngineState) (uid cid : String) (score : ℚ) :
    CREngineState :=
  let ui := pyGet st.userInteractionMatrix uid []
  { st with userInteractionMatrix := pySet st.userInteractionMatrix uid (pySet ui cid score) }

/-- `update_peer_success_rate(content_id, success_rate)`. -/
def updatePeerSuccessRate (st : CREngineState) (cid : String) (rate : ℚ) : CREngineState :=
  { st with peerSuccessRates := pySet st.peerSuccessRates cid rate }

/-- Python `str.title()` (each alphabetic run starts uppercase, the rest
lowered; `isAlpha` approximates Python's notion of cased characters). -/
def pyTitleAux : Bool → List Char → List Char
  | _, [] => []
  | prevAlpha, c :: rest =>
    if c.isAlpha then
      (if prevAlpha then c.toLower else c.toUpper) :: pyTitleAux true rest
    else c :: pyTitleAux false rest

/-- Python `str.title()`. -/
def pyTitle (s : String) : String := { data := pyTitleAux false s.data }

/-- The static topic-relationship table of `_get_related_topics`. -/
def topicRelationships : List (String × List String) :=
  [("mathematics", ["algebra", "geometry", "calculus", "statistics"]),
   ("programming", ["algorithms", "data_structures", "software_engineering"]),
   ("science", ["physics", "chemistry", "biology"]),
   ("history", ["world_history", "american_history", "ancient_history"]),
   ("language", ["grammar", "vocabulary", "writing", "literature"])]

/-- The partial-match loop of `_get_related_topics`: first key that
contains (or is contained in) the topic wins; otherwise the first key whose
related list contains the topic. -/
def relatedLoop (tl : String) : List (String × List String) → List String
  | [] => []
  | kr :: rest =>
    if strIn tl kr.1 || strIn kr.1 tl then kr.2
    else if kr.2.contains tl then kr.1 :: kr.2.filter (fun t => t ≠ tl)
    else relatedLoop tl rest

/-- `_get_related_topics(topic)`. -/
def getRelatedTopics (topic : String) : List String :=
  let tl := pyLower topic
  if pyHasKey topicRelationships tl then pyGet topicRelationships tl []
  else relatedLoop tl topicRelationships

/-- `request.max_duration or 60` (0 and `None` are falsy). -/
def pyOrInt (o : Option Int) (d : Int) : Int :=
  match o with
  | none => d
  | some v => if v = 0 then d else v

/-- One synthesized candidate item of `_get_candidate_content` for topic
`t` at topic index `i`, item index `j`. -/
def mkCandidate (req : ContentRecommendationRequest) (t : String) (i j : Nat) : ContentItem :=
  let cid := "content_" ++ t ++ "_" ++ toString i ++ "_" ++ toString j
  { contentId := cid
    title := pyTitle t ++ " - Part " ++ toString (j + 1)
    description := "Learn about " ++ t ++ " with this comprehensive guide"
    subject := req.currentTopic
    topics := [t]
    difficulty := req.skillLevel
    format := req.preferredFormats.getD (j % req.preferredFormats.length) .video
    durationMinutes := min (pyOrInt req.maxDuration 60) (30 + j * 15)
    source := "sample_content"
    url := some ("https://example.com/content/" ++ cid)
    metadata := some { educationLevel := some req.educationLevel,
                       learningContext := some req.learningContext } }

/-- `_get_candidate_content(request)`: up to 5 topics × 3 items, then the
duration and exclusion filters. -/
def getCandidateContent (req : ContentRecommendationRequest) : List ContentItem :=
  let topics := [pyLower req.currentTopic] ++ getRelatedTopics req.currentTopic
  let base := (topics.take 5).enum.bind (fun it =>
    (List.range 3).map (fun j => mkCandidate req it.2 it.1 j))
  let afterDur := match req.maxDuration with
    | some v => if v ≠ 0 then base.filter (fun c => c.durationMinutes ≤ v) else base
    | none => base
  if req.excludeContent ≠ [] then
    afterDur.filter (fun c => !(req.excludeContent.contains c.contentId))
  else afterDur

/-- `hash(s) % 100 / 100.0` (Python `%` on a positive modulus is `Int.emod`). -/
def hashFrac (h : String → Int) (s : String) : ℚ := ((h s).emod 100 : ℤ) / 100

/-- `_create_query_vector(request, user_profile)` (the profile argument is
accepted and unused, as in the source). -/
def createQueryVector (h : String → Int) (req : ContentRecommendationRequest)
    (_profile : Option UserProfileM) : List ℚ :=
  let base := List.replicate 128 (hashFrac h req.currentTopic)
  let mult : ℚ := match req.skillLevel with
    | .beginner => 3/10
    | .intermediate => 6/10
    | .advanced => 9/10
  let ctx : ℚ := match req.learningContext with
    | .self_paced => 1/10
    | .classroom => 2/10
    | .group_study => 15/100
    | .exam_prep => 3/10
  (base.map (fun v => v * mult)).map (fun v => v + ctx)

/-- The hash-derived 128-dimensional pseudo-embedding of
`_get_content_embedding`. -/
def computeEmbedding (h : String → Int) (cid : String) : List ℚ :=
  (List.range 128).map (fun i => hashFrac h (cid ++ toString i))

/-- `_get_content_embedding(content_id)`: cache hit or compute.  (The cache
write is omitted: within one call each content id is consulted once, so the
returned values are unchanged.) -/
def getContentEmbedding (st : CREngineState) (h : String → Int) (cid : String) : List ℚ :=
  match pyGet? st.contentEmbeddings cid with
  | some e => e
  | none => computeEmbedding h cid

/-- The source-reliability table of `_calculate_quality_score`. -/
def sourceScores : List (String × ℚ) :=
  [("khan_academy", 9/10), ("coursera", 85/100), ("youtube", 7/10), ("sample_content", 6/10)]

/-- `_calculate_quality_score(content)`. -/
def calculateQualityScore (c : ContentItem) : ℚ :=
  let q := pyGet sourceScores c.source (1/2)
  let q2 := match c.metadata with
    | some m =>
      let qa := if m.verified then q + 1/10 else q
      if m.expertReviewed then qa + 1/10 else qa
    | none => q
  min 1 q2

/-- Build a `ContentRecommendation` from a content item and scores (the
constructor call repeated in each strategy). -/
def mkContentRec (c : ContentItem) (rel q : ℚ) : ContentRec :=
  { contentId := c.contentId
    title := c.title
    description := c.description
    url := c.url
    difficulty := c.difficulty
    format := c.format
    durationMinutes := c.durationMinutes
    topics := c.topics
    source := c.source
    relevanceScore := rel
    qualityScore := q }

/-- `recommendations.sort(key=lambda x: x.relevance_score, reverse=True)`:
stable descending sort. -/
def sortByRelevanceDesc (recs : List ContentRec) : List ContentRec :=
  recs.mergeSort (fun a b => decide (b.relevanceScore ≤ a.relevanceScore))

/-- `_vector_similarity_recommendations` (no embedding is ever `None` in
the model, so no candidate is skipped). -/
def vectorSimilarityRecommendations (st : CREngineState) (h : String → Int)
    (simFn : List ℚ → List ℚ → ℚ) (req : ContentRecommendationRequest)
    (profile : Option UserProfileM) (candidates : List ContentItem) : List ContentRec :=
  let qv := createQueryVector h req profile
  sortByRelevanceDesc (candidates.map (fun c =>
    mkContentRec c (simFn qv (getContentEmbedding st h c.contentId)) (calculateQualityScore c)))

/-- `_find_similar_users(user_id, user_profile)`. -/
def findSimilarUsers (userId : String) (profile : Option UserProfileM) : List String :=
  match profile with
  | some _ => (List.range 5).map (fun i => "similar_user_" ++ userId ++ "_" ++ toString i)
  | none => (List.range 3).map (fun i => "user_" ++ toString i)

/-- `_calculate_collaborative_score(content_id, similar_users,
current_user_id)`. -/
def calculateCollaborativeScore (st : CREngineState) (cid : String)
    (similarUsers : List String) (_currentUserId : String) : ℚ :=
  if similarUsers = [] then 1/2
  else
    let scores := similarUsers.bind (fun u =>
      match pyGet? (pyGet st.userInteractionMatrix u []) cid with
      | some v => [v]
      | none => [])
    if scores = [] then 1/2
    else max 0 (min 1 (scores.sum / scores.length))

/-- `_collaborative_filtering_recommendations`. -/
def collaborativeFilteringRecommendations (st : CREngineState)
    (req : ContentRecommendationRequest) (profile : Option UserProfileM)
    (candidates : List ContentItem) : List ContentRec :=
  let similar := findSimilarUsers req.userId profile
  sortByRelevanceDesc (candidates.map (fun c =>
    let cf := calculateCollaborativeScore st c.contentId similar req.userId
    let rate := pyGet st.peerSuccessRates c.contentId (1/2)
    mkContentRec c (cf * (7/10) + rate * (3/10)) (calculateQualityScore c)))

/-- `_get_user_learning_style(request, user_profile)`. -/
def getUserLearningStyle (_req : ContentRecommendationRequest)
    (profile : Option UserProfileM) : String :=
  match profile with
  | some p =>
    match p.learningPreferences with
    | some lp => lp.learningStyle.getD "visual"
    | none => "visual"
  | none => "visual"

/-- `_load_learning_style_preferences()`. -/
def learningStylePreferences : List (String × List (String × ℚ)) :=
  [("visual", [("video", 9/10), ("interactive", 8/10), ("article", 6/10),
               ("audio", 3/10), ("document", 1/2)]),
   ("auditory", [("audio", 9/10), ("video", 7/10), ("interactive", 1/2),
                 ("article", 4/10), ("document", 4/10)]),
   ("kinesthetic", [("interactive", 9/10), ("video", 6/10), ("audio", 4/10),
                    ("article", 3/10), ("document", 3/10)]),
   ("reading", [("article", 9/10), ("document", 8/10), ("interactive", 6/10),
                ("video", 1/2), ("audio", 4/10)])]

/-- `_calculate_learning_style_score(content, style_preferences)` — note
the boost conditions test style names against the keys of the inner
format→score dict, so they never fire on the shipped tables; embedded
faithfully. -/
def calculateLearningStyleScore (c : ContentItem) (stylePrefs : List (String × ℚ)) : ℚ :=
  let fs := pyGet stylePrefs c.format.val (1/2)
  let fs2 :=
    if c.format = .video ∧ pyHasKey stylePrefs "visual" then fs * (12/10)
    else if c.format = .audio ∧ pyHasKey stylePrefs "auditory" then fs * (12/10)
    else if c.format = .interactive ∧ pyHasKey stylePrefs "kinesthetic" then fs * (12/10)
    else if c.format = .article ∧ pyHasKey stylePrefs "reading" then fs * (12/10)
    else fs
  min 1 fs2

/-- `_calculate_format_preference_score(content_format, preferred_formats)`. -/
def calculateFormatPreferenceScore (fmt : ContentFormat)
    (preferred : List ContentFormat) : ℚ :=
  if preferred = [] then 1/2
  else if preferred.contains fmt then 1 - (preferred.indexOf fmt : ℚ) * (1/10)
  else 3/10

/-- `_learning_style_recommendations`. -/
def learningStyleRecommendations (req : ContentRecommendationRequest)
    (profile : Option UserProfileM) (candidates : List ContentItem) : List ContentRec :=
  let style := getUserLearningStyle req profile
  let stylePrefs := pyGet learningStylePreferences style []
  sortByRelevanceDesc (candidates.map (fun c =>
    mkContentRec c
      ((calculateLearningStyleScore c stylePrefs) * (6/10)
        + (calculateFormatPreferenceScore c.format req.preferredFormats) * (4/10))
      (calculateQualityScore c)))

/-- `combined_scores[k] = combined_scores.get(k, 0) + v`. -/
def qDictAdd (d : List (String × ℚ)) (k : String) (v : ℚ) : List (String × ℚ) :=
  pySet d k (pyGet d k 0 + v)

/-- One weighted accumulation pass of `_hybrid_recommendations`:
`for rec in recs: combined_scores[rec.content_id] =
combined_scores.get(rec.content_id, 0) + rec.relevance_score * w`. -/
def hybFold (w : ℚ) (recs : List ContentRec) (d : List (String × ℚ)) :
    List (String × ℚ) :=
  recs.foldl (fun d r => qDictAdd d r.contentId (r.relevanceScore * w)) d

/-- `_hybrid_recommendations`: weight the three strategies 0.4/0.35/0.25
per content id (insertion-ordered dict), rebuild recommendations through
the content map (last equal id wins, as Python dict comprehension does). -/
def hybridRecommendations (st : CREngineState) (h : String → Int)
    (simFn : List ℚ → List ℚ → ℚ) (req : ContentRecommendationRequest)
    (profile : Option UserProfileM) (candidates : List ContentItem) : List ContentRec :=
  let vrecs := vectorSimilarityRecommendations st h simFn req profile candidates
  let crecs := collaborativeFilteringRecommendations st req profile candidates
  let srecs := learningStyleRecommendations req profile candidates
  let d1 := hybFold (4/10) vrecs []
  let d2 := hybFold (35/100) crecs d1
  let d3 := hybFold (25/100) srecs d2
  sortByRelevanceDesc (d3.bind (fun kv =>
    match candidates.reverse.find? (fun c => c.contentId == kv.1) with
    | some c => [mkContentRec c kv.2 (calculateQualityScore c)]
    | none => []))

/-- `_is_age_appropriate(recommendation, education_level)`. -/
def isAgeAppropriate (rec : ContentRec) (el : EducationLevel) : Bool :=
  if el = .k12 then decide (rec.qualityScore ≥ 6/10) else true

/-- The `for rec in recommendations` loop of `_apply_diversity_filter`
(`used_topics`/`used_formats` sets are membership-only, modelled as
deduplicated lists). -/
def diversityLoop (diverse : List ContentRec) (usedTopics : List String)
    (usedFormats : List ContentFormat) : List ContentRec → List ContentRec
  | [] => diverse
  | r :: rest =>
    let rtopics := r.topics.dedup
    let overlap := (rtopics.filter (fun t => usedTopics.contains t)).length
    let formatUsed := usedFormats.contains r.format
    let addIt := diverse.length < 3 ∨ (overlap < 2 ∧ formatUsed = false)
    let diverse2 := if addIt then diverse ++ [r] else diverse
    let usedT2 := if addIt
      then usedTopics ++ rtopics.filter (fun t => !(usedTopics.contains t))
      else usedTopics
    let usedF2 := if addIt
      then (if usedFormats.contains r.format then usedFormats else usedFormats ++ [r.format])
      else usedFormats
    if diverse2.length ≥ 10 then diverse2
    else diversityLoop diverse2 usedT2 usedF2 rest

/-- `_apply_diversity_filter(recommendations)`. -/
def applyDiversityFilter (recs : List ContentRec) : List ContentRec :=
  if recs.length ≤ 5 then recs
  else diversityLoop [] [] [] recs

/-- `_apply_final_filters(recommendations, request, user_profile)`:
age-appropriateness and score thresholds, diversity filter, final
`0.7*relevance + 0.3*quality` re-score, descending sort. -/
def applyFinalFilters (recs : List ContentRec) (req : ContentRecommendationRequest) :
    List ContentRec :=
  let filtered := recs.filter (fun r =>
    isAgeAppropriate r req.educationLevel
      && decide (¬ r.qualityScore < 3/10)
      && decide (¬ r.relevanceScore < 2/10))
  let diverse := applyDiversityFilter filtered
  let rescored := diverse.map (fun r =>
    { r with relevanceScore := r.relevanceScore * (7/10) + r.qualityScore * (3/10) })
  sortByRelevanceDesc rescored

/-- `_get_fallback_recommendations(request)`. -/
def getFallbackRecommendations (req : ContentRecommendationRequest) : List ContentRec :=
  (List.range 5).map (fun i =>
    { contentId := "fallback_" ++ req.currentTopic ++ "_" ++ toString i
      title := req.currentTopic ++ " - Introduction " ++ toString (i + 1)
      description := "Learn the basics of " ++ req.currentTopic
      url := none
      difficulty := req.skillLevel
      format := req.preferredFormats.headD .video
      durationMinutes := min (pyOrInt req.maxDuration 60) 30
      topics := [pyLower req.currentTopic]
      source := "fallback"
      relevanceScore := 1/2
      qualityScore := 6/10 })

/-- `get_personalized_recommendations(request, user_profile, strategy,
max_recommendations)`. -/
def getPersonalizedRecommendations (st : CREngineState) (h : String → Int)
    (simFn : List ℚ → List ℚ → ℚ) (req : ContentRecommendationRequest)
    (profile : Option UserProfileM) (strategy : RecommendationStrategy)
    (maxRecs : Nat) : List ContentRec :=
  let candidates := getCandidateContent req
  if candidates = [] then getFallbackRecommendations req
  else
    let recs := match strategy with
      | .vector_similarity => vectorSimilarityRecommendations st h simFn req profile candidates
      | .collaborative_filtering => collaborativeFilteringRecommendations st req profile candidates
      | .learning_style_based => learningStyleRecommendations req profile candidates
      | .hybrid => hybridRecommendations st h simFn req profile candidates
    (applyFinalFilters recs req).take maxRecs

/-!
## Cosine similarity (`_calculate_cosine_similarity`), over ℝ

numpy's norm takes a real square root, so this single function is embedded
over ℝ; everything else in the pipeline is exact rational arithmetic and
receives the similarity function as the parameter `simFn`.
-/

/-- `np.dot(a, b)` on equal-length vectors. -/
def dotList (v w : List ℝ) : ℝ := ((v.zip w).map (fun p => p.1 * p.2)).sum

/-- The sum of squares under `np.linalg.norm`. -/
def sumSq (v : List ℝ) : ℝ := (v.map (fun x => x * x)).sum

/-- `np.linalg.norm(a)`. -/
noncomputable def normList (v : List ℝ) : ℝ := Real.sqrt (sumSq v)

/-- `_calculate_cosine_similarity(vec1, vec2)`: 0 on mismatched lengths or
a zero norm, else the cosine normalized to [0,1] by `(sim + 1) / 2`. -/
noncomputable def cosineSimilarity (v w : List ℝ) : ℝ :=
  if v.length ≠ w.length then 0
  else if normList v = 0 ∨ normList w = 0 then 0
  else (dotList v w / (normList v * normList w) + 1) / 2

/-!
## Orchestrator, recommendation side (`ai_service.py`)
-/

/-- A recommendation dict as the orchestrator returns it: the union of the
keys of a provider item (external, already parsed) and of
`ContentRecommendation.dict()`; `fallback_used` absent is falsy. -/
structure RecDict where
  contentId : Option String := none
  title : Option String := none
  description : Option String := none
  url : Option String := none
  difficulty : Option DifficultyLevel := none
  format : Option ContentFormat := none
  durationMinutes : Option Int := none
  topics : List String := []
  source : Option String := none
  relevanceScore : Option ℚ := none
  qualityScore : Option ℚ := none
  aiProvider : Option String := none
  fallbackUsed : Bool := false
deriving DecidableEq, Repr

/-- `rec.dict()` on an engine recommendation. -/
def recToDict (r : ContentRec) : RecDict :=
  { contentId := some r.contentId
    title := some r.title
    description := some r.description
    url := r.url
    difficulty := some r.difficulty
    format := some r.format
    durationMinutes := some r.durationMinutes
    topics := r.topics
    source := some r.source
    relevanceScore := some r.relevanceScore
    qualityScore := some r.qualityScore }

/-- Dispatch one provider call for content recommendations. -/
def callRecProvider (orc grc : ContentRecommendationRequest → Except Unit (List RecDict))
    (p : AIProvider) (req : ContentRecommendationRequest) : Except Unit (List RecDict) :=
  match p with
  | .openai => orc req
  | .gemini => grc req

/-- `_get_ai_content_recommendations(request, provider)`. -/
def getAiContentRecommendations
    (orc grc : ContentRecommendationRequest → Except Unit (List RecDict))
    (fallbacks : Bool) (cur : AIProvider) (override : Option AIProvider)
    (req : ContentRecommendationRequest) : Option (List RecDict) :=
  let active := override.getD cur
  match callRecProvider orc grc active req with
  | .ok result => some (result.map (fun r => { r with aiProvider := some active.val }))
  | .error _ =>
    if fallbacks then
      match callRecProvider orc grc (otherProvider active) req with
      | .ok result => some (result.map (fun r =>
          { r with aiProvider := some (otherProvider active).val, fallbackUsed := true }))
      | .error _ => none
    else none

/-- `_convert_recommendation_request_to_profile(request)` (its handler arm
returning `None` is unreachable in the total model). -/
def convertRecommendationRequestToProfile (req : ContentRecommendationRequest) :
    Option UserProfileM :=
  some
    { userId := req.userId
      educationLevel := req.educationLevel
      subjects := [req.currentTopic]
      skillLevels := [(req.currentTopic, req.skillLevel)]
      learningPreferences := some
        { learningContext := some req.learningContext
          preferredFormats := some (req.preferredFormats.map (fun f => f.val))
          maxDuration := req.maxDuration }
      goals := ["learn " ++ req.currentTopic]
      interactionHistory := [] }

/-- `get_algorithmic_content_recommendations(request, strategy)` (an empty
or invalid strategy string falls back to hybrid; `max_recommendations` is
fixed at 10 by the caller). -/
def getAlgorithmicContentRecommendations (st : CREngineState) (h : String → Int)
    (simFn : List ℚ → List ℚ → ℚ) (req : ContentRecommendationRequest)
    (strategy : Option String) : List ContentRec :=
  let profile := convertRecommendationRequestToProfile req
  let strat := match strategy with
    | some s => if s = "" then .hybrid else (recommendationStrategyOf? (pyLower s)).getD .hybrid
    | none => RecommendationStrategy.hybrid
  getPersonalizedRecommendations st h simFn req profile strat 10

/-- The fill loop of `_combine_recommendations`: append algorithmic items
whose content id is not among the kept provider ids, tagged
`algorithmic_enhanced`, stopping at 10 total. -/
def fillCombine (aiIds : List (Option String)) :
    List RecDict → List RecDict → List RecDict
  | acc, [] => acc
  | acc, r :: rs =>
    if acc.length ≥ 10 then acc
    else if aiIds.contains r.contentId then fillCombine aiIds acc rs
    else fillCombine aiIds (acc ++ [{ r with source := some "algorithmic_enhanced" }]) rs

/-- `_combine_recommendations(ai_recommendations, algorithmic_recommendations)`. -/
def combineRecommendations (ai : List RecDict) (algo : List ContentRec) : List RecDict :=
  let algoDicts := algo.map recToDict
  let aiCount := min ai.length 6
  let combined := ai.take aiCount
  let aiIds := combined.map (fun r => r.contentId)
  fillCombine aiIds combined algoDicts

/-- `get_content_recommendations(request, provider, strategy)`. -/
def getContentRecommendations
    (orc grc : ContentRecommendationRequest → Except Unit (List RecDict))
    (fallbacks : Bool) (cur : AIProvider) (override : Option AIProvider)
    (st : CREngineState) (h : String → Int) (simFn : List ℚ → List ℚ → ℚ)
    (req : ContentRecommendationRequest) (strategy : Option String) : List RecDict :=
  let ai := getAiContentRecommendations orc grc fallbacks cur override req
  let algo := getAlgorithmicContentRecommendations st h simFn req strategy
  match ai with
  | some recs =>
    if recs ≠ [] ∧ recs.all (fun r => r.fallbackUsed = false) then
      combineRecommendations recs algo
    else algo.map recToDict
  | none => algo.map recToDict

/-!
## Peer matching engine (`peer_matching_service.py`)
-/

/-- `MatchingStrategy` enum. -/
inductive MatchingStrategy where
  | skill_complementarity
  | learning_goal_alignment
  | communication_compatibility
  | safety_focused
  | comprehensive
deriving DecidableEq, Repr

/-- `SafetyLevel` enum. -/
inductive SafetyLevel where
  | high | medium | standard
deriving DecidableEq, Repr

/-- `PeerMatchingRequest` from `ai_models.py`. -/
structure PeerMatchingRequest where
  userId : String
  educationLevel : EducationLevel
  subjects : List String := []
  skillLevels : List (String × DifficultyLevel) := []
  learningGoals : List String := []
  availability : List (String × List String) := []
  communicationPreferences : List String := []
  ageRange : Option String := none
deriving DecidableEq, Repr

/-- A peer-profile dict (candidate peers and `self.user_profiles` entries);
the defaults are the values `dict.get` supplies for `{}`. -/
structure PeerProfile where
  userId : String := ""
  educationLevel : Option EducationLevel := none
  subjects : List String := []
  skillLevels : List (String × DifficultyLevel) := []
  learningGoals : List String := []
  availability : List (String × List String) := []
  communicationPreferences : List String := []
  ageRange : Option String := none
deriving DecidableEq, Repr

/-- `PeerMatch` from `ai_models.py`. -/
structure PeerMatch where
  userId : String
  compatibilityScore : ℚ
  sharedSubjects : List String
  complementarySkills : List (String × String)
  commonGoals : List String
  availabilityOverlap : List String
  communicationMatch : List String
  matchReasons : List String
deriving DecidableEq, Repr

/-- `list(set(a) & set(b))` — Python's unordered set intersection, modelled
as order-preserving deduplicated filtering. -/
def pySetInter (a b : List String) : List String :=
  a.dedup.filter (fun x => b.contains x)

/-- `f"...{score:.2f}"` — Python float formatting, approximated by the
exact rational's `toString` (no claim inspects these strings). -/
def pyFormat2 (q : ℚ) : String := toString q

/-- The 1/2/3 ordinal of `level_values`. -/
def levelValue : DifficultyLevel → Int
  | .beginner => 1
  | .intermediate => 2
  | .advanced => 3

/-- `_calculate_skill_complementarity(user_skills, peer_skills)`. -/
def calculateSkillComplementarity
    (userSkills peerSkills : List (String × DifficultyLevel)) : ℚ :=
  if userSkills = [] ∨ peerSkills = [] then 0
  else
    let common := (userSkills.map (fun kv => kv.1)).dedup.filter
      (fun s => (peerSkills.map (fun kv => kv.1)).contains s)
    if common = [] then 0
    else
      let scores := common.map (fun s =>
        let uv := levelValue (pyGet userSkills s .beginner)
        let pv := levelValue (pyGet peerSkills s .beginner)
        let diff := (uv - pv).natAbs
        if diff = 0 then (8/10 : ℚ) else if diff = 1 then 1 else 4/10)
      scores.sum / scores.length

/-- `_find_complementary_skills(user_skills, peer_skills)`. -/
def findComplementarySkills
    (userSkills peerSkills : List (String × DifficultyLevel)) : List (String × String) :=
  (((userSkills.map (fun kv => kv.1)) ++ (peerSkills.map (fun kv => kv.1))).dedup).bind
    (fun s =>
      match pyGet? userSkills s, pyGet? peerSkills s with
      | some ul, some pl =>
        if levelValue ul > levelValue pl then [(s, "You can help with " ++ s)]
        else if levelValue pl > levelValue ul then [(s, "They can help with " ++ s)]
        else [(s, "Equal level in " ++ s)]
      | _, _ => [])

/-- `_calculate_goal_alignment(user_goals, peer_goals)` — the arguments are
Python sets built from the goal lists, so sizes are of deduplicated lists. -/
def calculateGoalAlignment (userGoals peerGoals : List String) : ℚ :=
  if userGoals.dedup = [] ∨ peerGoals.dedup = [] then 0
  else
    let inter := (userGoals.dedup.filter (fun g => peerGoals.contains g)).length
    let union := ((userGoals ++ peerGoals).dedup).length
    if union = 0 then 0 else (inter : ℚ) / union

/-- Digit-run parsing under Python `int(str)` (signs beyond a single
leading minus, whitespace and underscores are not modelled; the slot
strings the code feeds it are plain digits). -/
def natFromDigits (l : List Char) : Nat :=
  l.foldl (fun a c => a * 10 + (c.toNat - 48)) 0

/-- Python `int(s)`, `none` for a `ValueError`. -/
def pyInt? (s : String) : Option Int :=
  match s.data with
  | '-' :: rest =>
    if rest ≠ [] ∧ rest.all Char.isDigit then some (-(natFromDigits rest : Int)) else none
  | l => if l ≠ [] ∧ l.all Char.isDigit then some (natFromDigits l : Int) else none

/-- `_time_to_minutes(time_str)` (any parse failure yields 0, as the
`except` arm does). -/
def timeToMinutes (s : String) : Int :=
  match s.splitOn ":" with
  | [hh, mm] =>
    match pyInt? hh, pyInt? mm with
    | some h2, some m2 => h2 * 60 + m2
    | _, _ => 0
  | _ => 0

/-- `_times_overlap(time1, time2)` (a malformed range raises and yields
`False`, as the `except` arm does). -/
def timesOverlap (t1 t2 : String) : Bool :=
  if !(strIn "-" t1) || !(strIn "-" t2) then t1 == t2
  else
    match t1.splitOn "-", t2.splitOn "-" with
    | [s1, e1], [s2, e2] =>
      let a1 := timeToMinutes s1
      let b1 := timeToMinutes e1
      let a2 := timeToMinutes s2
      let b2 := timeToMinutes e2
      !(decide (b1 ≤ a2) || decide (b2 ≤ a1))
    | _, _ => false

/-- `_calculate_availability_overlap(user_availability, peer_availability)`. -/
def calculateAvailabilityOverlap
    (userAvail peerAvail : List (String × List String)) : List String :=
  userAvail.bind (fun ds =>
    let peerSlots := pyGet peerAvail ds.1 []
    ds.2.bind (fun us =>
      peerSlots.bind (fun ps =>
        if timesOverlap us ps then [ds.1 ++ ": " ++ us] else [])))

/-- `_determine_safety_level(request)`. -/
def determineSafetyLevel (req : PeerMatchingRequest) : SafetyLevel :=
  let ar := req.ageRange.getD ""
  if strIn "under" (pyLower ar) ∨ req.educationLevel = .k12 then .high
  else if strIn "18-25" ar ∨ req.educationLevel = .college then .medium
  else .standard

/-- `_determine_safety_level_from_profile(peer_profile)`. -/
def determineSafetyLevelFromProfile (p : PeerProfile) : SafetyLevel :=
  let ar := p.ageRange.getD ""
  if strIn "under" (pyLower ar) ∨ p.educationLevel = some .k12 then .high
  else if strIn "18-25" ar ∨ p.educationLevel = some .college then .medium
  else .standard

/-- `_is_safety_compatible(user_safety, peer_safety)`. -/
def isSafetyCompatible (u p : SafetyLevel) : Bool :=
  match u with
  | .high => p == .high
  | .medium => p == .medium || p == .standard
  | .standard => p != .high

/-- `_calculate_safety_weight(user_safety, peer_safety)`. -/
def calculateSafetyWeight (u p : SafetyLevel) : ℚ :=
  if u = p then 1
  else if isSafetyCompatible u p then 8/10
  else 1/10

/-- The `PeerMatch(...)` constructor call each strategy repeats. -/
def mkPeerMatch (req : PeerMatchingRequest) (peer : PeerProfile) (score : ℚ)
    (reasons : List String) : PeerMatch :=
  { userId := peer.userId
    compatibilityScore := score
    sharedSubjects := pySetInter req.subjects peer.subjects
    complementarySkills := findComplementarySkills req.skillLevels peer.skillLevels
    commonGoals := pySetInter req.learningGoals peer.learningGoals
    availabilityOverlap := calculateAvailabilityOverlap req.availability peer.availability
    communicationMatch :=
      pySetInter req.communicationPreferences peer.communicationPreferences
    matchReasons := reasons }

/-- `_skill_complementarity_matching(request, candidate_peers)`. -/
def skillComplementarityMatching (req : PeerMatchingRequest)
    (peers : List PeerProfile) : List PeerMatch :=
  peers.map (fun p =>
    let score := calculateSkillComplementarity req.skillLevels p.skillLevels
    mkPeerMatch req p score ["Skill complementarity score: " ++ pyFormat2 score])

/-- `_learning_goal_alignment_matching(request, candidate_peers)`. -/
def learningGoalAlignmentMatching (req : PeerMatchingRequest)
    (peers : List PeerProfile) : List PeerMatch :=
  peers.map (fun p =>
    let score := calculateGoalAlignment req.learningGoals p.learningGoals
    mkPeerMatch req p score ["Goal alignment score: " ++ pyFormat2 score])

/-- The communication-preference overlap ratio shared by two strategies:
`len(set & set) / max(len(request.communication_preferences), 1)`. -/
def commOverlapRatio (req : PeerMatchingRequest) (p : PeerProfile) : ℚ :=
  ((pySetInter req.communicationPreferences p.communicationPreferences).length : ℚ)
    / max req.communicationPreferences.length 1

/-- `_communication_compatibility_matching(request, candidate_peers)`. -/
def communicationCompatibilityMatching (req : PeerMatchingRequest)
    (peers : List PeerProfile) : List PeerMatch :=
  peers.map (fun p =>
    let commScore := commOverlapRatio req p
    let availScore : ℚ :=
      ((calculateAvailabilityOverlap req.availability p.availability).length : ℚ)
        / max ((req.availability.map (fun ds => ds.2.length)).sum) 1
    let score := (commScore + availScore) / 2
    mkPeerMatch req p score ["Communication compatibility: " ++ pyFormat2 score])

/-- `_safety_focused_matching(request, candidate_peers)`. -/
def safetyFocusedMatching (req : PeerMatchingRequest)
    (peers : List PeerProfile) : List PeerMatch :=
  let us := determineSafetyLevel req
  peers.bind (fun p =>
    let ps := determineSafetyLevelFromProfile p
    if !(isSafetyCompatible us ps) then []
    else
      let score := (1/2 : ℚ) * calculateSafetyWeight us ps
      let reasons := ["Safety-verified compatibility: " ++ pyFormat2 score]
        ++ (if us = .high then ["Age-appropriate matching with enhanced safety"] else [])
      [mkPeerMatch req p score reasons])

/-- `_comprehensive_matching(request, candidate_peers)`. -/
def comprehensiveMatching (req : PeerMatchingRequest)
    (peers : List PeerProfile) : List PeerMatch :=
  peers.map (fun p =>
    let skill := calculateSkillComplementarity req.skillLevels p.skillLevels
    let goal := calculateGoalAlignment req.learningGoals p.learningGoals
    let comm := commOverlapRatio req p
    let score := skill * (3/10) + goal * (25/100) + comm * (25/100) + (8/10) * (2/10)
    mkPeerMatch req p score ["Overall compatibility: " ++ pyFormat2 score])

/-- The education levels the candidate generator cycles through. -/
def peerEducationLevels : List EducationLevel := [.k12, .college, .professional]

/-- The subjects the candidate generator cycles through. -/
def peerSubjects : List String :=
  ["mathematics", "science", "programming", "history", "language"]

/-- `_get_candidate_peers(request)`: 20 synthetic peers, self excluded. -/
def getCandidatePeers (req : PeerMatchingRequest) : List PeerProfile :=
  ((List.range 20).map (fun i => (
    { userId := "peer_" ++ req.userId ++ "_" ++ toString i
      educationLevel := some (peerEducationLevels.getD (i % 3) .k12)
      subjects := (peerSubjects.drop (i % 5)).take 2
      skillLevels := [(peerSubjects.getD (i % 5) "",
        ([DifficultyLevel.beginner, .intermediate, .advanced]).getD (i % 3) .beginner)]
      learningGoals := ["learn " ++ peerSubjects.getD (i % 5) "",
        "master " ++ peerSubjects.getD ((i + 1) % 5) ""]
      availability := [("monday", ["09:00-11:00", "14:00-16:00"]),
        ("wednesday", ["10:00-12:00"]), ("friday", ["15:00-17:00"])]
      communicationPreferences := (["video_call", "chat", "email"]).take ((i % 3) + 1)
      ageRange := some (if i % 3 = 0 then "18-25" else "25-35") } : PeerProfile))).filter
    (fun p => p.userId ≠ req.userId)

/-- `_apply_safety_filters(matches, request)`: drop matches whose peer
profile (looked up in `self.user_profiles`, modelled by the `profiles`
map) resolves to an incompatible tier; HIGH-tier requesters get an extra
reason string appended. -/
def applySafetyFilters (profiles : String → Option PeerProfile)
    (ms : List PeerMatch) (req : PeerMatchingRequest) : List PeerMatch :=
  let us := determineSafetyLevel req
  ms.bind (fun m =>
    let pp := (profiles m.userId).getD ({} : PeerProfile)
    if isSafetyCompatible us (determineSafetyLevelFromProfile pp) then
      [if us = .high
       then { m with matchReasons := m.matchReasons ++ ["Age-appropriate and safe for minors"] }
       else m]
    else [])

/-- `matches.sort(key=lambda x: x.compatibility_score, reverse=True)`. -/
def sortByCompatDesc (ms : List PeerMatch) : List PeerMatch :=
  ms.mergeSort (fun a b => decide (b.compatibilityScore ≤ a.compatibilityScore))

/-- `find_peer_matches(request, strategy, max_matches)`; `profiles` is the
engine's `self.user_profiles` state (loaded empty by `initialize`). -/
def findPeerMatches (profiles : String → Option PeerProfile)
    (req : PeerMatchingRequest) (strategy : MatchingStrategy) (maxMatches : Nat) :
    List PeerMatch :=
  let candidates := getCandidatePeers req
  if candidates = [] then []
  else
    let ms := match strategy with
      | .skill_complementarity => skillComplementarityMatching req candidates
      | .learning_goal_alignment => learningGoalAlignmentMatching req candidates
      | .communication_compatibility => communicationCompatibilityMatching req candidates
      | .safety_focused => safetyFocusedMatching req candidates
      | .comprehensive => comprehensiveMatching req candidates
    (sortByCompatDesc (applySafetyFilters profiles ms req)).take maxMatches

/-- One user's record in `self.interaction_history`. -/
structure FeedbackRec where
  successfulMatches : Nat := 0
  totalMatches : Nat := 0
  feedbackScores : List ℚ := []
deriving DecidableEq, Repr

/-- `update_match_feedback(user_id, peer_id, feedback_score, feedback_type)`. -/
def updateMatchFeedback (hist : List (String × FeedbackRec))
    (userId _peerId : String) (score : ℚ) (_ftype : String) :
    List (String × FeedbackRec) :=
  let hist1 := if pyHasKey hist userId then hist else hist ++ [(userId, ({} : FeedbackRec))]
  let r := pyGet hist1 userId ({} : FeedbackRec)
  let r2 := { r with totalMatches := r.totalMatches + 1,
                     feedbackScores := r.feedbackScores ++ [score] }
  let r3 := if score ≥ 7/10 then { r2 with successfulMatches := r2.successfulMatches + 1 }
    else r2
  pySet hist1 userId r3

/-- The analytics dict of `get_matching_analytics`. -/
structure MatchingAnalytics where
  userId : String
  timePeriodDays : Nat
  totalMatches : Nat
  successfulMatches : Nat
  successRate : ℚ
  averageFeedbackScore : ℚ
  matchingAccuracy : ℚ
deriving DecidableEq, Repr

/-- `get_matching_analytics(user_id, time_period)` — note the defaults: for
an absent user the success-rate denominator default is 1. -/
def getMatchingAnalytics (hist : List (String × FeedbackRec)) (userId : String)
    (timePeriod : Nat) : MatchingAnalytics :=
  match pyGet? hist userId with
  | some r =>
    { userId := userId
      timePeriodDays := timePeriod
      totalMatches := r.totalMatches
      successfulMatches := r.successfulMatches
      successRate := (r.successfulMatches : ℚ) / max r.totalMatches 1
      averageFeedbackScore := r.feedbackScores.sum / max r.feedbackScores.length 1
      matchingAccuracy := 78/100 }
  | none =>
    { userId := userId
      timePeriodDays := timePeriod
      totalMatches := 0
      successfulMatches := 0
      successRate := (0 : ℚ) / max 1 1
      averageFeedbackScore := (0 : ℚ) / max 0 1
      matchingAccuracy := 78/100 }

/-- A finite sequence of `update_match_feedback` calls applied in order,
starting from a given history. -/
def applyFeedbackCalls (hist : List (String × FeedbackRec))
    (calls : List (String × String × ℚ × String)) : List (String × FeedbackRec) :=
  calls.foldl (fun h c => updateMatchFeedback h c.1 c.2.1 c.2.2.1 c.2.2.2) hist

/-!
## Association-list dictionary lemmas
-/

theorem find?_map_of_pred {α : Type} (p : α → Bool) (f : α → α)
    (hf : ∀ x, p (f x) = p x) :
    ∀ l : List α, (l.map f).find? p = (l.find? p).map f := by
  intro l
  induction l with
  | nil => rfl
  | cons a t ih =>
    by_cases hpa : p a = true
    · rw [List.map_cons, List.find?_cons_of_pos, List.find?_cons_of_pos _ hpa]
      · rfl
      · rw [hf a]; exact hpa
    · rw [List.map_cons, List.find?_cons_of_neg, List.find?_cons_of_neg _ hpa, ih]
      rw [hf a]; exact hpa

theorem find?_set_of_match {κ α : Type} [BEq κ] [LawfulBEq κ] (k : κ) (v : α) :
    ∀ l : List (κ × α), (∃ kv ∈ l, (kv.1 == k) = true) →
      (l.map (fun kv => if kv.1 == k then (kv.1, v) else kv)).find?
          (fun kv => kv.1 == k) = some (k, v) := by
  intro l
  induction l with
  | nil => rintro ⟨kv, hkv, -⟩; exact absurd hkv (List.not_mem_nil kv)
  | cons a t ih =>
    intro hex
    by_cases ha : (a.1 == k) = true
    · have hk : a.1 = k := eq_of_beq ha
      rw [List.map_cons, if_pos ha, List.find?_cons_of_pos]
      · rw [hk]
      · simpa using ha
    · rw [List.map_cons, if_neg ha, List.find?_cons_of_neg]
      · apply ih
        obtain ⟨kv, hkv, hp⟩ := hex
        rcases List.mem_cons.mp hkv with h | h
        · exact absurd (h ▸ hp) ha
        · exact ⟨kv, h, hp⟩
      · simpa using ha

theorem pyGet?_pySet_self {κ α : Type} [BEq κ] [LawfulBEq κ]
    (d : List (κ × α)) (k : κ) (v : α) :
    pyGet? (pySet d k v) k = some v := by
  rw [pySet]
  split
  · rename_i h
    rw [pyGet?, ← List.map_reverse, find?_set_of_match]
    · rfl
    · obtain ⟨kv, hkv, hp⟩ := List.any_eq_true.mp h
      exact ⟨kv, List.mem_reverse.mpr hkv, hp⟩
  · rw [pyGet?, List.reverse_append]
    simp only [List.reverse_singleton, List.singleton_append]
    rw [List.find?_cons_of_pos]
    · rfl
    · simp

theorem pyGet?_pySet_ne {κ α : Type} [BEq κ] [LawfulBEq κ]
    (d : List (κ × α)) (k k' : κ) (v : α) (hne : (k' == k) = false) :
    pyGet? (pySet d k v) k' = pyGet? d k' := by
  rw [pySet]
  split
  · rw [pyGet?, pyGet?, ← List.map_reverse, find?_map_of_pred]
    · cases hf : d.reverse.find? (fun kv => kv.1 == k') with
      | none => rfl
      | some kv =>
        have h1 := List.find?_some hf
        have h2 : kv.1 = k' := eq_of_beq (by simpa using h1)
        have h3 : (kv.1 == k) = false := by rw [h2]; exact hne
        simp [h3]
    · intro kv
      by_cases h : (kv.1 == k) = true <;> simp [h]
  · rw [pyGet?, pyGet?, List.reverse_append]
    simp only [List.reverse_singleton, List.singleton_append]
    rw [List.find?_cons_of_neg]
    have : ¬ k' = k := by
      intro h; rw [h] at hne; simp at hne
    simp
    intro h
    exact absurd h.symm this

theorem pyGet_eq_getD {κ α : Type} [BEq κ] (d : List (κ × α)) (k : κ) (dflt : α) :
    pyGet d k dflt = (pyGet? d k).getD dflt := by
  rw [pyGet, pyGet?]
  cases d.reverse.find? (fun kv => kv.1 == k) <;> rfl

theorem pyGet?_mem {κ α : Type} [BEq κ] [LawfulBEq κ]
    (d : List (κ × α)) (k : κ) (v : α) (h : pyGet? d k = some v) : (k, v) ∈ d := by
  rw [pyGet?] at h
  cases hf : d.reverse.find? (fun kv => kv.1 == k) with
  | none => rw [hf] at h; exact absurd h (by simp)
  | some kv =>
    rw [hf] at h
    have h1 : kv.1 = k := eq_of_beq (by simpa using List.find?_some hf)
    have h2 : kv ∈ d := List.mem_reverse.mp (List.mem_of_find?_eq_some hf)
    have h3 : kv.2 = v := by simpa using h
    have : kv = (k, v) := by
      cases kv; simp only at h1 h3; rw [h1, h3]
    exact this ▸ h2

theorem mem_pySet {κ α : Type} [BEq κ] [LawfulBEq κ]
    (d : List (κ × α)) (k : κ) (v : α) (kv : κ × α) (h : kv ∈ pySet d k v) :
    kv = (k, v) ∨ kv ∈ d := by
  rw [pySet] at h
  split at h
  · obtain ⟨kv0, hkv0, heq⟩ := List.mem_map.mp h
    by_cases h0 : (kv0.1 == k) = true
    · rw [if_pos h0] at heq
      left
      rw [← heq, eq_of_beq h0]
    · rw [if_neg h0] at heq
      right
      exact heq ▸ hkv0
  · rcases List.mem_append.mp h with h1 | h1
    · exact Or.inr h1
    · exact Or.inl (List.mem_singleton.mp h1)

theorem keys_pySet {κ α : Type} [BEq κ] (d : List (κ × α)) (k : κ) (v : α) :
    (pySet d k v).map (fun kv => kv.1) =
      if pyHasKey d k then d.map (fun kv => kv.1)
      else d.map (fun kv => kv.1) ++ [k] := by
  rw [pySet, pyHasKey]
  by_cases h : d.any (fun kv => kv.1 == k) = true
  · rw [if_pos h, if_pos h, List.map_map]
    apply List.map_congr_left
    intro kv _
    by_cases hkv : (kv.1 == k) = true <;> simp [hkv]
  · rw [if_neg h, if_neg h, List.map_append]
    rfl

theorem keys_pySet_nodup {κ α : Type} [BEq κ] [LawfulBEq κ]
    (d : List (κ × α)) (k : κ) (v : α)
    (hnd : (d.map (fun kv => kv.1)).Nodup) :
    ((pySet d k v).map (fun kv => kv.1)).Nodup := by
  rw [keys_pySet]
  split
  · exact hnd
  · rename_i h
    rw [pyHasKey] at h
    have hk : k ∉ d.map (fun kv => kv.1) := by
      intro hmem
      obtain ⟨kv, hkv, hk1⟩ := List.mem_map.mp hmem
      exact h (List.any_eq_true.mpr ⟨kv, hkv, by rw [hk1]; simp⟩)
    simp only [List.nodup_append, List.nodup_cons, List.not_mem_nil,
      not_false_eq_true, List.nodup_nil, and_true, true_and]
    simp only [List.disjoint_singleton]
    exact ⟨hnd, hk⟩

theorem pyGet?_eq_of_mem_nodup {κ α : Type} [BEq κ] [LawfulBEq κ] :
    ∀ (d : List (κ × α)), (d.map (fun kv => kv.1)).Nodup →
      ∀ kv ∈ d, pyGet? d kv.1 = some kv.2 := by
  intro d
  induction d with
  | nil => intro _ kv hkv; exact absurd hkv (List.not_mem_nil kv)
  | cons a t ih =>
    intro hnd kv hkv
    rw [List.map_cons, List.nodup_cons] at hnd
    rcases List.mem_cons.mp hkv with h | h
    · subst h
      rw [pyGet?, List.reverse_cons, List.find?_append]
      have hnone : t.reverse.find? (fun x => x.1 == kv.1) = none := by
        rw [List.find?_eq_none]
        intro x hx
        intro hp
        exact hnd.1 (List.mem_map.mpr ⟨x, List.mem_reverse.mp hx, eq_of_beq hp⟩)
      rw [hnone]
      simp
    · have := ih hnd.2 kv h
      rw [pyGet?] at this ⊢
      rw [List.reverse_cons, List.find?_append]
      cases hf : t.reverse.find? (fun x => x.1 == kv.1) with
      | none => rw [hf] at this; exact absurd this (by simp)
      | some kv0 =>
        rw [hf] at this
        simpa using this

theorem pyGet_qDictAdd_self (d : List (String × ℚ)) (k : String) (v : ℚ) :
    pyGet (qDictAdd d k v) k 0 = pyGet d k 0 + v := by
  rw [qDictAdd, pyGet_eq_getD, pyGet?_pySet_self]
  rfl

theorem pyGet_qDictAdd_ne (d : List (String × ℚ)) (k k' : String) (v : ℚ)
    (hne : (k' == k) = false) :
    pyGet (qDictAdd d k v) k' 0 = pyGet d k' 0 := by
  rw [qDictAdd, pyGet_eq_getD, pyGet?_pySet_ne _ _ _ _ hne, ← pyGet_eq_getD]

/-!
## C10: feedback accounting invariants
-/

/-- The per-user accounting invariant of `self.interaction_history`. -/
def FeedbackInv (kv : String × FeedbackRec) : Prop :=
  kv.2.successfulMatches ≤ kv.2.totalMatches ∧
    kv.2.totalMatches = kv.2.feedbackScores.length

theorem feedbackInv_update (hist : List (String × FeedbackRec))
    (a b : String) (s : ℚ) (t : String)
    (hwf : ∀ kv ∈ hist, FeedbackInv kv) :
    ∀ kv ∈ updateMatchFeedback hist a b s t, FeedbackInv kv := by
  have hwf1 : ∀ kv ∈ (if pyHasKey hist a then hist
      else hist ++ [(a, ({} : FeedbackRec))]), FeedbackInv kv := by
    split
    · exact hwf
    · intro kv hkv
      rcases List.mem_append.mp hkv with h | h
      · exact hwf kv h
      · rw [List.mem_singleton.mp h]
        exact ⟨Nat.le_refl 0, rfl⟩
  intro kv hkv
  simp only [updateMatchFeedback] at hkv
  rcases mem_pySet _ _ _ _ hkv with heq | hm
  · have hr : FeedbackInv (a, pyGet (if pyHasKey hist a then hist
        else hist ++ [(a, ({} : FeedbackRec))]) a ({} : FeedbackRec)) := by
      rw [pyGet_eq_getD]
      cases hg : pyGet? (if pyHasKey hist a then hist
          else hist ++ [(a, ({} : FeedbackRec))]) a with
      | none => exact ⟨Nat.le_refl 0, rfl⟩
      | some v => simpa using hwf1 (a, v) (pyGet?_mem _ _ _ hg)
    rw [heq]
    obtain ⟨h1, h2⟩ := hr
    constructor
    · simp only [FeedbackInv] at h1 ⊢
      split <;> simp <;> omega
    · simp only [FeedbackInv] at h2 ⊢
      split <;> simp <;> omega
  · exact hwf1 kv hm

theorem applyFeedbackCalls_inv :
    ∀ (calls : List (String × String × ℚ × String))
      (hist : List (String × FeedbackRec)),
      (∀ kv ∈ hist, FeedbackInv kv) →
      ∀ kv ∈ applyFeedbackCalls hist calls, FeedbackInv kv := by
  intro calls
  induction calls with
  | nil => intro hist h; exact h
  | cons c cs ih =>
    intro hist h
    rw [applyFeedbackCalls, List.foldl_cons]
    exact ih _ (feedbackInv_update hist c.1 c.2.1 c.2.2.1 c.2.2.2 h)

theorem pyGet_condAppend (hist : List (String × FeedbackRec)) (a : String) :
    pyGet (if pyHasKey hist a then hist else hist ++ [(a, ({} : FeedbackRec))]) a
        ({} : FeedbackRec)
      = pyGet hist a ({} : FeedbackRec) := by
  split
  · rfl
  · rename_i h
    rw [pyHasKey] at h
    rw [pyGet, pyGet, List.reverse_append]
    simp only [List.reverse_singleton, List.singleton_append]
    rw [List.find?_cons_of_pos]
    · have hnone : hist.reverse.find? (fun kv => kv.1 == a) = none := by
        rw [List.find?_eq_none]
        intro x hx hp
        exact h (List.any_eq_true.mpr ⟨x, List.mem_reverse.mp hx, hp⟩)
      rw [hnone]
    · simp

/-- C10: starting from an empty interaction history, after any finite
sequence of `update_match_feedback` calls every stored record satisfies
`successful_matches ≤ total_matches` and `total_matches =
len(feedback_scores)`; each call bumps `total_matches` by exactly one,
appends exactly one score, and bumps `successful_matches` exactly when the
score is ≥ 0.7; and the `success_rate` computed by
`get_matching_analytics` always lies in [0,1]. -/
theorem claim_c10_feedback_accounting :
    (∀ (calls : List (String × String × ℚ × String)) (uid : String),
      (∀ kv ∈ applyFeedbackCalls [] calls, FeedbackInv kv) ∧
      0 ≤ (getMatchingAnalytics (applyFeedbackCalls [] calls) uid 30).successRate ∧
      (getMatchingAnalytics (applyFeedbackCalls [] calls) uid 30).successRate ≤ 1) ∧
    (∀ (hist : List (String × FeedbackRec)) (a b : String) (s : ℚ) (t : String),
      pyGet? (updateMatchFeedback hist a b s t) a = some
        { successfulMatches := (pyGet hist a ({} : FeedbackRec)).successfulMatches
            + (if s ≥ 7/10 then 1 else 0)
          totalMatches := (pyGet hist a ({} : FeedbackRec)).totalMatches + 1
          feedbackScores := (pyGet hist a ({} : FeedbackRec)).feedbackScores ++ [s] }) := by
  constructor
  · intro calls uid
    have hinv := applyFeedbackCalls_inv calls []
      (by intro kv hkv; exact absurd hkv (List.not_mem_nil kv))
    refine ⟨hinv, ?_, ?_⟩
    · rw [getMatchingAnalytics]
      cases hg : pyGet? (applyFeedbackCalls [] calls) uid with
      | none => norm_num
      | some r =>
        simp only
        positivity
    · rw [getMatchingAnalytics]
      cases hg : pyGet? (applyFeedbackCalls [] calls) uid with
      | none => norm_num
      | some r =>
        have hr := hinv (uid, r) (pyGet?_mem _ _ _ hg)
        simp only
        rw [div_le_one]
        · exact_mod_cast Nat.le_trans hr.1 (Nat.le_max_left r.totalMatches 1)
        · exact_mod_cast Nat.lt_of_lt_of_le Nat.one_pos (Nat.le_max_right r.totalMatches 1)
  · intro hist a b s t
    simp only [updateMatchFeedback]
    rw [pyGet?_pySet_self, pyGet_condAppend]
    by_cases hs : s ≥ 7/10
    · rw [if_pos hs, if_pos hs]
    · rw [if_neg hs, if_neg hs]
      simp

/-!
## C3: safety-tier filtering of peer matches
-/

theorem mem_safeTake (profiles : String → Option PeerProfile)
    (ms : List PeerMatch) (req : PeerMatchingRequest) (n : Nat) :
    ∀ m ∈ (sortByCompatDesc (applySafetyFilters profiles ms req)).take n,
      isSafetyCompatible (determineSafetyLevel req)
        (determineSafetyLevelFromProfile ((profiles m.userId).getD ({} : PeerProfile)))
        = true := by
  intro m hm
  have hm1 := List.take_subset _ _ hm
  rw [sortByCompatDesc] at hm1
  have hm2 := List.mem_mergeSort.mp hm1
  rw [applySafetyFilters] at hm2
  simp only [List.mem_bind] at hm2
  obtain ⟨m0, _, hmem⟩ := hm2
  split at hmem
  · rename_i hcomp
    have hmeq := List.mem_singleton.mp hmem
    have huid : m.userId = m0.userId := by
      rw [hmeq]; split <;> rfl
    rw [huid]
    exact hcomp
  · exact absurd hmem (List.not_mem_nil m)

theorem mem_findPeerMatches_compatible
    (profiles : String → Option PeerProfile) (req : PeerMatchingRequest)
    (strategy : MatchingStrategy) (maxMatches : Nat) :
    ∀ m ∈ findPeerMatches profiles req strategy maxMatches,
      isSafetyCompatible (determineSafetyLevel req)
        (determineSafetyLevelFromProfile ((profiles m.userId).getD ({} : PeerProfile)))
        = true := by
  intro m hm
  rw [findPeerMatches.eq_def] at hm
  split at hm <;> simp only [] at hm <;> split at hm <;>
    first
      | exact absurd hm (List.not_mem_nil m)
      | exact mem_safeTake profiles _ req maxMatches m hm

/-- C3: for every state of `self.user_profiles`, every request, every
strategy and every `max_matches`, each match surviving
`_apply_safety_filters` has a peer profile whose safety tier is
compatible with the requester's; in particular a HIGH-tier requester
only ever sees HIGH-tier peers, and a STANDARD-tier requester never
sees a HIGH-tier peer. -/
theorem claim_c3_safety_tier_filtering :
    ∀ (profiles : String → Option PeerProfile) (req : PeerMatchingRequest)
      (strategy : MatchingStrategy) (maxMatches : Nat),
      ((findPeerMatches profiles req strategy maxMatches).all (fun m =>
          isSafetyCompatible (determineSafetyLevel req)
            (determineSafetyLevelFromProfile
              ((profiles m.userId).getD ({} : PeerProfile)))) = true) ∧
      (determineSafetyLevel req = .high →
        (findPeerMatches profiles req strategy maxMatches).all (fun m =>
          determineSafetyLevelFromProfile
            ((profiles m.userId).getD ({} : PeerProfile)) == .high) = true) ∧
      (determineSafetyLevel req = .standard →
        (findPeerMatches profiles req strategy maxMatches).all (fun m =>
          determineSafetyLevelFromProfile
            ((profiles m.userId).getD ({} : PeerProfile)) != .high) = true) := by
  intro profiles req strategy maxMatches
  have key := mem_findPeerMatches_compatible profiles req strategy maxMatches
  refine ⟨?_, ?_, ?_⟩
  · rw [List.all_eq_true]
    intro m hm
    exact key m hm
  · intro hhigh
    rw [List.all_eq_true]
    intro m hm
    have h := key m hm
    rw [hhigh] at h
    simpa [isSafetyCompatible] using h
  · intro hstd
    rw [List.all_eq_true]
    intro m hm
    have h := key m hm
    rw [hstd] at h
    simpa [isSafetyCompatible] using h

/-!
## C4: score bounds
-/

/-- A plain recommendation request for topic "algebra". -/
def c4Req : ContentRecommendationRequest :=
  { userId := "u"
    currentTopic := "algebra"
    educationLevel := .k12
    skillLevel := .beginner
    learningContext := .self_paced
    preferredFormats := [.video]
    maxDuration := some 60
    excludeContent := [] }

/-- C4 fails: after a single `update_peer_success_rate` call with rate 10
(the method accepts arbitrary floats unchecked, and the pydantic model
declares no bound), `_collaborative_filtering_recommendations` emits a
recommendation with `relevance_score = 0.7*0.5 + 0.3*10 = 3.35 > 1`. -/
theorem claim_c4_score_bounds_violated :
    ∃ r ∈ collaborativeFilteringRecommendations
        (updatePeerSuccessRate defaultEngineState "content_algebra_0_0" 10)
        c4Req none (getCandidateContent c4Req),
      r.relevanceScore = 67/20 ∧ 1 < r.relevanceScore := by
  refine ⟨mkContentRec (mkCandidate c4Req "algebra" 0 0)
      ((1/2 : ℚ) * (7/10) + 10 * (3/10))
      (calculateQualityScore (mkCandidate c4Req "algebra" 0 0)), ?_,
      by norm_num [mkContentRec], by norm_num [mkContentRec]⟩
  rw [collaborativeFilteringRecommendations, sortByRelevanceDesc]
  apply List.mem_mergeSort.mpr
  apply List.mem_map.mpr
  refine ⟨mkCandidate c4Req "algebra" 0 0, by decide, rfl⟩

/-!
## C9: cosine similarity
-/

theorem sumSq_nonneg (v : List ℝ) : 0 ≤ sumSq v := by
  apply List.sum_nonneg
  intro x hx
  obtain ⟨y, _, hy⟩ := List.mem_map.mp hx
  rw [← hy]
  exact mul_self_nonneg y

theorem dotList_self (v : List ℝ) : dotList v v = sumSq v := by
  induction v with
  | nil => rfl
  | cons a t ih =>
    simp only [dotList, sumSq, List.zip_cons_cons, List.map_cons, List.sum_cons] at ih ⊢
    rw [ih]

theorem normList_ne_zero (v : List ℝ) (h : sumSq v ≠ 0) : normList v ≠ 0 := by
  rw [normList]
  intro hz
  exact h (le_antisymm (Real.sqrt_eq_zero'.mp hz) (sumSq_nonneg v))

/-- C9 counterexample: the two zero vectors `[0]` and `[0]` are identical
and of equal length, yet `_calculate_cosine_similarity` returns 0.0 (the
zero-norm guard fires), which is neither greater than 0.9 nor equal to
0.5. -/
theorem claim_c9_counterexample :
    cosineSimilarity [(0 : ℝ)] [(0 : ℝ)] = 0 ∧
      ¬ ((9/10 : ℝ) < cosineSimilarity [(0 : ℝ)] [(0 : ℝ)]) ∧
      cosineSimilarity [(0 : ℝ)] [(0 : ℝ)] ≠ 1/2 := by
  have h : cosineSimilarity [(0 : ℝ)] [(0 : ℝ)] = 0 := by
    rw [cosineSimilarity]
    rw [if_neg (by simp), if_pos]
    left
    simp [normList, sumSq, Real.sqrt_zero]
  refine ⟨h, ?_, ?_⟩ <;> rw [h] <;> norm_num

/-- C9 amended: for vectors of nonzero norm the claim holds — identical
vectors score exactly 1 (> 0.9) and orthogonal vectors score exactly 0.5 —
and mismatched lengths always score 0.0; but an identical (or orthogonal)
pair containing a zero vector scores 0.0 instead. -/
theorem claim_c9_cosine_amended :
    (∀ v : List ℝ, sumSq v ≠ 0 →
      cosineSimilarity v v = 1 ∧ (9/10 : ℝ) < cosineSimilarity v v) ∧
    (∀ v w : List ℝ, v.length = w.length → sumSq v ≠ 0 → sumSq w ≠ 0 →
      dotList v w = 0 → cosineSimilarity v w = 1/2) ∧
    (∀ v w : List ℝ, v.length ≠ w.length → cosineSimilarity v w = 0) := by
  refine ⟨?_, ?_, ?_⟩
  · intro v hv
    have h1 : cosineSimilarity v v = 1 := by
      rw [cosineSimilarity, if_neg (by simp), if_neg]
      · rw [dotList_self, normList, Real.mul_self_sqrt (sumSq_nonneg v)]
        rw [div_self hv]
        norm_num
      · rw [not_or]
        exact ⟨normList_ne_zero v hv, normList_ne_zero v hv⟩
    exact ⟨h1, by rw [h1]; norm_num⟩
  · intro v w hlen hv hw hdot
    rw [cosineSimilarity, if_neg (by simpa using hlen), if_neg]
    · rw [hdot, zero_div]
      norm_num
    · rw [not_or]
      exact ⟨normList_ne_zero v hv, normList_ne_zero w hw⟩
  · intro v w hlen
    rw [cosineSimilarity, if_pos hlen]

/-- Closed instantiation of the amended C9 theorem at `[1]`, `([1,0],[0,1])`
and `([1],[])`. -/
theorem claim_c9_witness :
    cosineSimilarity [(1 : ℝ)] [(1 : ℝ)] = 1 ∧
      cosineSimilarity [(1 : ℝ), 0] [(0 : ℝ), 1] = 1/2 ∧
      cosineSimilarity [(1 : ℝ)] [] = 0 := by
  refine ⟨(claim_c9_cosine_amended.1 [(1 : ℝ)] (by norm_num [sumSq])).1,
    claim_c9_cosine_amended.2.1 [(1 : ℝ), 0] [(0 : ℝ), 1] rfl
      (by norm_num [sumSq]) (by norm_num [sumSq]) (by norm_num [dotList]),
    claim_c9_cosine_amended.2.2 [(1 : ℝ)] [] (by simp)⟩

/-!
## C7: diversity filter
-/

theorem diversityLoop_append :
    ∀ (l : List ContentRec) (d : List ContentRec) (t : List String)
      (f : List ContentFormat), ∃ e, diversityLoop d t f l = d ++ e := by
  intro l
  induction l with
  | nil => intro d t f; exact ⟨[], by simp [diversityLoop]⟩
  | cons r rest ih =>
    intro d t f
    simp only [diversityLoop]
    split
    · split
      · exact ⟨[r], rfl⟩
      · obtain ⟨e1, he1⟩ := ih (d ++ [r])
          (t ++ r.topics.dedup.filter (fun x => !(t.contains x)))
          (if f.contains r.format then f else f ++ [r.format])
        exact ⟨[r] ++ e1, by rw [he1, List.append_assoc]⟩
    · split
      · exact ⟨[], by simp⟩
      · obtain ⟨e1, he1⟩ := ih d t f
        exact ⟨e1, he1⟩

theorem diversityLoop_take3 :
    ∀ (l : List ContentRec) (d : List ContentRec) (t : List String)
      (f : List ContentFormat), d.length ≤ 3 →
      (diversityLoop d t f l).take 3 = (d ++ l).take 3 := by
  intro l
  induction l with
  | nil => intro d t f _; simp [diversityLoop]
  | cons r rest ih =>
    intro d t f hd
    by_cases h3 : d.length < 3
    · simp only [diversityLoop]
      rw [if_pos (Or.inl h3), if_pos (Or.inl h3), if_pos (Or.inl h3)]
      rw [if_neg (by simp; omega)]
      rw [ih (d ++ [r]) _ _ (by simp; omega)]
      rw [List.append_assoc]
      rfl
    · have hd3 : d.length = 3 := le_antisymm hd (not_lt.mp h3)
      obtain ⟨e, he⟩ := diversityLoop_append (r :: rest) d t f
      rw [he]
      rw [List.take_left' hd3, List.take_left' hd3]

theorem diversityLoop_length_le :
    ∀ (l : List ContentRec) (d : List ContentRec) (t : List String)
      (f : List ContentFormat), d.length ≤ 9 →
      (diversityLoop d t f l).length ≤ 10 := by
  intro l
  induction l with
  | nil => intro d t f h; simp [diversityLoop]; omega
  | cons r rest ih =>
    intro d t f hd
    simp only [diversityLoop]
    split
    · split
      · rename_i hb
        simp at hb ⊢
        omega
      · rename_i hb
        apply ih
        simp at hb ⊢
        omega
    · split
      · rename_i hb
        omega
      · exact ih d t f hd

/-- The skeleton of a recommendation whose only distinguishing data are
the topic list and the format (everything the filter inspects). -/
def c7Rec (cid : String) (ts : List String) (f : ContentFormat) : ContentRec :=
  { contentId := cid
    title := cid
    description := ""
    url := none
    difficulty := .beginner
    format := f
    durationMinutes := 30
    topics := ts
    source := "sample_content"
    relevanceScore := 1/2
    qualityScore := 1/2 }

/-- 10 recommendations: 7 on "algebra", 3 on "biology", all in the same
format. -/
def c7BadInput : List ContentRec :=
  (List.range 7).map (fun i => c7Rec ("a" ++ toString i) ["algebra"] .video)
    ++ (List.range 3).map (fun i => c7Rec ("b" ++ toString i) ["biology"] .video)

/-- The same shape, but the "biology" items arrive in a fresh format. -/
def c7GoodInput : List ContentRec :=
  (List.range 7).map (fun i => c7Rec ("a" ++ toString i) ["algebra"] .video)
    ++ (List.range 3).map (fun i => c7Rec ("b" ++ toString i) ["biology"] .article)

/-- C7 counterexample: 10 recommendations, 7 of one topic then 3 of a
second topic, all sharing one format: the diversity filter returns exactly
the first 3 items, so only 1 distinct topic survives, not 2. -/
theorem claim_c7_counterexample :
    c7BadInput.length = 10 ∧
    (c7BadInput.filter (fun r => r.topics = ["algebra"])).length = 7 ∧
    (c7BadInput.filter (fun r => r.topics = ["biology"])).length = 3 ∧
    applyDiversityFilter c7BadInput = c7BadInput.take 3 ∧
    ((applyDiversityFilter c7BadInput).bind (fun r => r.topics)).dedup.length = 1 := by
  refine ⟨rfl, ?_, ?_, rfl, rfl⟩ <;> rfl

/-- C7 amended: lists of at most 5 pass through unchanged; for longer lists
the first 3 items are always kept and the output never exceeds 10 items; an
item confronting a non-starved filter state is skipped unless its topic
overlap is below 2 and its format is unused; and the 7-plus-3 two-topic
scenario does yield 2 distinct topics when the minority group arrives in a
fresh format. -/
theorem claim_c7_diversity_amended :
    (∀ recs : List ContentRec, recs.length ≤ 5 → applyDiversityFilter recs = recs) ∧
    (∀ recs : List ContentRec, 5 < recs.length →
      (applyDiversityFilter recs).take 3 = recs.take 3 ∧
      (applyDiversityFilter recs).length ≤ 10) ∧
    (∀ (d : List ContentRec) (t : List String) (f : List ContentFormat)
        (r : ContentRec) (rest : List ContentRec),
      ¬ d.length < 3 →
      ¬ ((r.topics.dedup.filter (fun x => t.contains x)).length < 2 ∧
          f.contains r.format = false) →
      diversityLoop d t f (r :: rest) =
        if (d.length ≥ 10) then d else diversityLoop d t f rest) ∧
    (((applyDiversityFilter c7GoodInput).bind (fun r => r.topics)).dedup.length = 2) := by
  refine ⟨?_, ?_, ?_, rfl⟩
  · intro recs h
    rw [applyDiversityFilter, if_pos h]
  · intro recs h
    rw [applyDiversityFilter, if_neg (by omega)]
    constructor
    · rw [diversityLoop_take3 recs [] [] [] (by simp)]
      rfl
    · exact diversityLoop_length_le recs [] [] [] (by simp)
  · intro d t f r rest h3 hcond
    have haddIt : ¬ (d.length < 3 ∨
        ((r.topics.dedup.filter (fun x => t.contains x)).length < 2 ∧
          f.contains r.format = false)) := by
      intro hor
      rcases hor with h | h
      · exact h3 h
      · exact hcond h
    simp only [diversityLoop]
    rw [if_neg haddIt, if_neg haddIt, if_neg haddIt]

/-!
## C6: merged recommendation structure
-/

theorem fillCombine_spec (aiIds : List (Option String)) :
    ∀ (rs : List RecDict) (acc : List RecDict),
      ∃ e, fillCombine aiIds acc rs = acc ++ e ∧
        (∀ x ∈ e, x.source = some "algorithmic_enhanced" ∧
          ¬ aiIds.contains x.contentId = true ∧
          ∃ r ∈ rs, x = { r with source := some "algorithmic_enhanced" }) ∧
        (acc.length ≤ 10 → (acc ++ e).length ≤ 10) := by
  intro rs
  induction rs with
  | nil =>
    intro acc
    refine ⟨[], by simp [fillCombine], ?_, by simp⟩
    intro x hx
    exact absurd hx (List.not_mem_nil x)
  | cons r rest ih =>
    intro acc
    by_cases h10 : acc.length ≥ 10
    · refine ⟨[], ?_, ?_, by intro hacc; simpa using hacc⟩
      · rw [fillCombine, if_pos h10, List.append_nil]
      · intro x hx
        exact absurd hx (List.not_mem_nil x)
    · by_cases hdup : aiIds.contains r.contentId = true
      · obtain ⟨e, he, hmem, hlen⟩ := ih acc
        refine ⟨e, ?_, ?_, hlen⟩
        · rw [fillCombine, if_neg h10, if_pos hdup]
          exact he
        · intro x hx
          obtain ⟨h1, h2, r0, hr0, hx0⟩ := hmem x hx
          exact ⟨h1, h2, r0, List.mem_cons_of_mem r hr0, hx0⟩
      · obtain ⟨e1, he1, hmem1, hlen1⟩ :=
          ih (acc ++ [{ r with source := some "algorithmic_enhanced" }])
        refine ⟨{ r with source := some "algorithmic_enhanced" } :: e1, ?_, ?_, ?_⟩
        · rw [fillCombine, if_neg h10, if_neg hdup, he1, List.append_assoc]
          rfl
        · intro x hx
          rcases List.mem_cons.mp hx with hx0 | hx0
          · exact ⟨by rw [hx0], by rw [hx0]; exact hdup,
              r, List.mem_cons_self r rest, hx0⟩
          · obtain ⟨h1, h2, r0, hr0, hx1⟩ := hmem1 x hx0
            exact ⟨h1, h2, r0, List.mem_cons_of_mem r hr0, hx1⟩
        · intro hacc
          have := hlen1 (by simp; omega)
          simpa [List.length_append] using this

theorem take_min_self (recs : List RecDict) :
    recs.take (min recs.length 6) = recs.take 6 := by
  rcases le_total recs.length 6 with h | h
  · rw [min_eq_left h, List.take_of_length_le (le_refl _), List.take_of_length_le h]
  · rw [min_eq_right h]

/-- C6: when the provider returns a non-empty list with no item flagged
`fallback_used`, the orchestrator's merged output is the provider items
(at most 6, in order) followed by engine items whose content id is not
among the kept provider ids, each retagged `algorithmic_enhanced`, with
at most 10 items in total. -/
theorem claim_c6_merge_structure
    (orc grc : ContentRecommendationRequest → Except Unit (List RecDict))
    (fallbacks : Bool) (cur : AIProvider) (override : Option AIProvider)
    (st : CREngineState) (h : String → Int) (simFn : List ℚ → List ℚ → ℚ)
    (req : ContentRecommendationRequest) (strategy : Option String)
    (recs : List RecDict)
    (hai : getAiContentRecommendations orc grc fallbacks cur override req = some recs)
    (hne : recs ≠ [])
    (hfb : recs.all (fun r => r.fallbackUsed = false) = true) :
    getContentRecommendations orc grc fallbacks cur override st h simFn req strategy
        = combineRecommendations recs
            (getAlgorithmicContentRecommendations st h simFn req strategy) ∧
    (getContentRecommendations orc grc fallbacks cur override st h simFn req
        strategy).take (min recs.length 6) = recs.take 6 ∧
    (getContentRecommendations orc grc fallbacks cur override st h simFn req
        strategy).length ≤ 10 ∧
    ∀ x ∈ (getContentRecommendations orc grc fallbacks cur override st h simFn req
        strategy).drop (min recs.length 6),
      x.source = some "algorithmic_enhanced" ∧
      ¬ ((recs.take 6).map (fun r => r.contentId)).contains x.contentId = true ∧
      ∃ c ∈ getAlgorithmicContentRecommendations st h simFn req strategy,
        x = { recToDict c with source := some "algorithmic_enhanced" } := by
  have hout : getContentRecommendations orc grc fallbacks cur override st h simFn req
      strategy = combineRecommendations recs
        (getAlgorithmicContentRecommendations st h simFn req strategy) := by
    rw [getContentRecommendations]
    rw [hai]
    exact if_pos ⟨hne, hfb⟩
  obtain ⟨e, he, hmem, hlen⟩ := fillCombine_spec
    ((recs.take (min recs.length 6)).map (fun r => r.contentId))
    ((getAlgorithmicContentRecommendations st h simFn req strategy).map recToDict)
    (recs.take (min recs.length 6))
  have hcomb : combineRecommendations recs
      (getAlgorithmicContentRecommendations st h simFn req strategy)
        = recs.take (min recs.length 6) ++ e := by
    rw [combineRecommendations]
    exact he
  have hcl : (recs.take (min recs.length 6)).length = min recs.length 6 := by
    rw [List.length_take, min_eq_left (min_le_left _ _)]
  refine ⟨hout, ?_, ?_, ?_⟩
  · rw [hout, hcomb, List.take_left' hcl, take_min_self]
  · rw [hout, hcomb]
    apply hlen
    rw [hcl]
    exact le_trans (min_le_right _ _) (by norm_num)
  · intro x hx
    rw [hout, hcomb, List.drop_left' hcl] at hx
    obtain ⟨h1, h2, r0, hr0, hx1⟩ := hmem x hx
    rw [take_min_self] at h2
    obtain ⟨c, hc, hc1⟩ := List.mem_map.mp hr0
    exact ⟨h1, h2, c, hc, by rw [hx1, ← hc1]⟩

/-- Closed instantiation of the C6 merge theorem: one provider item and
the engine items for a "history" request. -/
theorem claim_c6_witness :
    getContentRecommendations (fun _ => Except.ok [{ contentId := some "p1" }])
        (fun _ => Except.error ()) true .openai none defaultEngineState
        (fun _ => 0) (fun _ _ => 0) c4Req none
      = combineRecommendations [{ contentId := some "p1", aiProvider := some "openai" }]
          (getAlgorithmicContentRecommendations defaultEngineState (fun _ => 0)
            (fun _ _ => 0) c4Req none) := by
  exact (claim_c6_merge_structure (fun _ => Except.ok [{ contentId := some "p1" }])
    (fun _ => Except.error ()) true .openai none defaultEngineState
    (fun _ => 0) (fun _ _ => 0) c4Req none
    [{ contentId := some "p1", aiProvider := some "openai" }]
    rfl (by simp) rfl).1

/-!
## C2: provider-failure fallbacks

Support lemmas for the hybrid-score dictionary folds.
-/

theorem pySet_ne_nil {κ α : Type} [BEq κ] (d : List (κ × α)) (k : κ) (v : α) :
    pySet d k v ≠ [] := by
  rw [pySet]
  split
  · rename_i hany
    intro hmap
    rcases d with _ | ⟨a, t⟩
    · simp at hany
    · simp at hmap
  · simp

theorem foldAdd_lookup {α : Type} (idf : α → String) (f : α → ℚ) :
    ∀ (recs : List α) (d : List (String × ℚ)) (k : String),
      pyGet (recs.foldl (fun d r => qDictAdd d (idf r) (f r)) d) k 0
        = pyGet d k 0 + ((recs.filter (fun r => idf r == k)).map f).sum := by
  intro recs
  induction recs with
  | nil => intro d k; simp
  | cons r rs ih =>
    intro d k
    rw [List.foldl_cons, ih]
    by_cases h : (idf r == k) = true
    · have hk : idf r = k := eq_of_beq h
      rw [List.filter_cons, if_pos h, List.map_cons, List.sum_cons, ← hk,
        pyGet_qDictAdd_self]
      ring
    · have h' : (k == idf r) = false := by
        rw [beq_eq_false_iff_ne]
        intro he
        rw [he] at h
        simp at h
      rw [pyGet_qDictAdd_ne _ _ _ _ h', List.filter_cons,
        if_neg (by simpa using h)]

theorem foldAdd_keys {α : Type} (idf : α → String) (f : α → ℚ) :
    ∀ (recs : List α) (d : List (String × ℚ)) (k : String),
      k ∈ (recs.foldl (fun d r => qDictAdd d (idf r) (f r)) d).map (fun kv => kv.1) →
      k ∈ d.map (fun kv => kv.1) ∨ k ∈ recs.map idf := by
  intro recs
  induction recs with
  | nil => intro d k hk; exact Or.inl hk
  | cons r rs ih =>
    intro d k hk
    rw [List.foldl_cons] at hk
    rcases ih _ k hk with h | h
    · rw [qDictAdd, keys_pySet] at h
      split at h
      · exact Or.inl h
      · rcases List.mem_append.mp h with h1 | h1
        · exact Or.inl h1
        · right
          rw [List.mem_singleton.mp h1]
          exact List.mem_cons_self _ _
    · exact Or.inr (List.mem_cons_of_mem _ h)

theorem foldAdd_keys_nodup {α : Type} (idf : α → String) (f : α → ℚ) :
    ∀ (recs : List α) (d : List (String × ℚ)),
      (d.map (fun kv => kv.1)).Nodup →
      ((recs.foldl (fun d r => qDictAdd d (idf r) (f r)) d).map (fun kv => kv.1)).Nodup := by
  intro recs
  induction recs with
  | nil => intro d hd; exact hd
  | cons r rs ih =>
    intro d hd
    rw [List.foldl_cons]
    exact ih _ (keys_pySet_nodup _ _ _ hd)

theorem foldAdd_ne_nil {α : Type} (idf : α → String) (f : α → ℚ) :
    ∀ (recs : List α) (d : List (String × ℚ)), d ≠ [] ∨ recs ≠ [] →
      recs.foldl (fun d r => qDictAdd d (idf r) (f r)) d ≠ [] := by
  intro recs
  induction recs with
  | nil =>
    intro d hd
    rcases hd with h | h
    · exact h
    · exact absurd rfl h
  | cons r rs ih =>
    intro d _
    rw [List.foldl_cons]
    exact ih _ (Or.inl (pySet_ne_nil _ _ _))

theorem mem_nodup_value (d : List (String × ℚ)) (kv : String × ℚ)
    (hnd : (d.map (fun kv => kv.1)).Nodup) (hkv : kv ∈ d) :
    kv.2 = pyGet d kv.1 0 := by
  rw [pyGet_eq_getD, pyGet?_eq_of_mem_nodup d hnd kv hkv]
  rfl

theorem user_key_ne_similar (key uid : String) (i : Nat) (hk : key.length < 14) :
    (key == "similar_user_" ++ uid ++ "_" ++ toString i) = false := by
  rw [beq_eq_false_iff_ne]
  intro h
  have hlen := congrArg String.length h
  rw [String.length_append, String.length_append, String.length_append] at hlen
  have h13 : "similar_user_".length = 13 := rfl
  have h1 : "_".length = 1 := rfl
  rw [h13, h1] at hlen
  omega

theorem pyGet_matrix_similar (uid : String) (i : Nat) :
    pyGet defaultEngineState.userInteractionMatrix
        ("similar_user_" ++ uid ++ "_" ++ toString i) []
      = ([] : List (String × ℚ)) := by
  rw [pyGet]
  have hnone : defaultEngineState.userInteractionMatrix.reverse.find?
      (fun kv => kv.1 == "similar_user_" ++ uid ++ "_" ++ toString i) = none := by
    rw [List.find?_eq_none]
    intro kv hkv
    fin_cases hkv <;>
      (simp only []; rw [user_key_ne_similar _ uid i (by decide)]; simp)
  rw [hnone]

theorem collaborativeScore_default (uid cid userId : String) :
    calculateCollaborativeScore defaultEngineState cid
      ((List.range 5).map (fun i => "similar_user_" ++ uid ++ "_" ++ toString i))
      userId = 1/2 := by
  rw [calculateCollaborativeScore]
  rw [if_neg (by simp [List.range_succ])]
  have hsc : ((List.range 5).map
      (fun i => "similar_user_" ++ uid ++ "_" ++ toString i)).bind (fun u =>
        match pyGet? (pyGet defaultEngineState.userInteractionMatrix u []) cid with
        | some v => [v]
        | none => []) = ([] : List ℚ) := by
    apply List.bind_eq_nil.mpr
    intro u hu
    obtain ⟨i, _, hi⟩ := List.mem_map.mp hu
    rw [← hi, pyGet_matrix_similar uid i]
    rfl
  rw [hsc]
  simp

theorem peerRate_ge_half (cid : String) :
    1/2 ≤ pyGet defaultEngineState.peerSuccessRates cid (1/2) := by
  rw [pyGet]
  cases hf : defaultEngineState.peerSuccessRates.reverse.find?
      (fun kv => kv.1 == cid) with
  | none => exact le_refl _
  | some kv =>
    have hmem := List.mem_reverse.mp (List.mem_of_find?_eq_some hf)
    simp only [defaultEngineState, List.mem_cons, List.mem_singleton,
      List.not_mem_nil, or_false] at hmem
    rcases hmem with h | h | h | h <;> rw [h] <;> norm_num

theorem mem_getCandidateContent (req : ContentRecommendationRequest)
    (c : ContentItem) (hc : c ∈ getCandidateContent req) :
    ∃ t i j, j < 3 ∧ c = mkCandidate req t i j := by
  rw [getCandidateContent] at hc
  have h1 : c ∈ (match req.maxDuration with
      | some v => if v ≠ 0 then
          (([pyLower req.currentTopic] ++ getRelatedTopics req.currentTopic).take
            5).enum.bind (fun it =>
              (List.range 3).map (fun j => mkCandidate req it.2 it.1 j))
            |>.filter (fun x : ContentItem => decide (x.durationMinutes ≤ v))
        else (([pyLower req.currentTopic] ++ getRelatedTopics req.currentTopic).take
            5).enum.bind (fun it =>
              (List.range 3).map (fun j => mkCandidate req it.2 it.1 j))
      | none => (([pyLower req.currentTopic] ++ getRelatedTopics req.currentTopic).take
            5).enum.bind (fun it =>
              (List.range 3).map (fun j => mkCandidate req it.2 it.1 j))) := by
    split at hc
    · exact List.mem_of_mem_filter hc
    · exact hc
  have hbase : c ∈ (([pyLower req.currentTopic]
      ++ getRelatedTopics req.currentTopic).take 5).enum.bind (fun it =>
        (List.range 3).map (fun j => mkCandidate req it.2 it.1 j)) := by
    split at h1
    · split at h1
      · exact List.mem_of_mem_filter h1
      · exact h1
    · exact h1
  obtain ⟨it, _, hmem⟩ := List.mem_bind.mp hbase
  obtain ⟨j, hj, hcj⟩ := List.mem_map.mp hmem
  exact ⟨it.2, it.1, j, by simpa using List.mem_range.mp hj, hcj.symm⟩

theorem quality_mkCandidate (req : ContentRecommendationRequest)
    (t : String) (i j : Nat) :
    calculateQualityScore (mkCandidate req t i j) = 3/5 := by
  rw [calculateQualityScore, mkCandidate]
  simp only [pyGet, sourceScores]
  norm_num [min_def]

theorem source_mkCandidate (req : ContentRecommendationRequest)
    (t : String) (i j : Nat) :
    (mkCandidate req t i j).source = "sample_content" := rfl

theorem styleScore_ge_mkCandidate (c : ContentItem) :
    3/10 ≤ calculateLearningStyleScore c
      (pyGet learningStylePreferences "visual" []) := by
  have hA : pyGet learningStylePreferences "visual" [] =
      [("video", (9/10 : ℚ)), ("interactive", 8/10), ("article", 6/10),
       ("audio", 3/10), ("document", 1/2)] := rfl
  have hv : pyGet [("video", (9/10 : ℚ)), ("interactive", 8/10), ("article", 6/10),
      ("audio", 3/10), ("document", 1/2)] "video" (1/2) = 9/10 := rfl
  have hi : pyGet [("video", (9/10 : ℚ)), ("interactive", 8/10), ("article", 6/10),
      ("audio", 3/10), ("document", 1/2)] "interactive" (1/2) = 8/10 := rfl
  have ha : pyGet [("video", (9/10 : ℚ)), ("interactive", 8/10), ("article", 6/10),
      ("audio", 3/10), ("document", 1/2)] "article" (1/2) = 6/10 := rfl
  have hau : pyGet [("video", (9/10 : ℚ)), ("interactive", 8/10), ("article", 6/10),
      ("audio", 3/10), ("document", 1/2)] "audio" (1/2) = 3/10 := rfl
  have hd : pyGet [("video", (9/10 : ℚ)), ("interactive", 8/10), ("article", 6/10),
      ("audio", 3/10), ("document", 1/2)] "document" (1/2) = 1/2 := rfl
  rw [calculateLearningStyleScore, hA]
  cases hf : c.format <;> simp only [hf, ContentFormat.val] <;>
    rw [if_neg (by decide), if_neg (by decide), if_neg (by decide), if_neg (by decide)] <;>
    (first | rw [hv] | rw [hi] | rw [ha] | rw [hau] | rw [hd]) <;>
    norm_num [min_def]

theorem indexOf_getElem_le {α : Type} [BEq α] [LawfulBEq α] :
    ∀ (l : List α) (m : Nat) (hm : m < l.length), l.indexOf l[m] ≤ m := by
  intro l
  induction l with
  | nil => intro m hm; simp at hm
  | cons a t ih =>
    intro m hm
    cases m with
    | zero => simp [List.indexOf_cons]
    | succ m' =>
      have hmt : m' < t.length := by simpa using hm
      simp only [List.getElem_cons_succ]
      by_cases ha : (a == t[m']) = true
      · rw [List.indexOf_cons, ha]
        simp
      · have ha2 : (a == t[m']) = false := by simpa using ha
        rw [List.indexOf_cons, ha2]
        simp only [cond_false]
        have := ih m' hmt
        omega

theorem formatPref_ge_half (preferred : List ContentFormat) (j : Nat) (hj : j < 3) :
    1/2 ≤ calculateFormatPreferenceScore
      (preferred.getD (j % preferred.length) .video) preferred := by
  rcases hp : preferred with _ | ⟨f0, rest⟩
  · rw [calculateFormatPreferenceScore]
    norm_num
  · rw [← hp]
    have hlen : 0 < preferred.length := by rw [hp]; simp
    have hm : j % preferred.length < preferred.length := Nat.mod_lt _ hlen
    have hget : preferred.getD (j % preferred.length) .video
        = preferred[j % preferred.length] := List.getD_eq_getElem _ _ hm
    rw [calculateFormatPreferenceScore, hget]
    rw [if_neg (by rw [hp]; simp)]
    rw [if_pos (by exact List.elem_iff.mpr (List.getElem_mem hm))]
    have hidx : preferred.indexOf preferred[j % preferred.length] ≤ j % preferred.length :=
      indexOf_getElem_le preferred _ hm
    have hidx2 : preferred.indexOf preferred[j % preferred.length] ≤ 2 :=
      le_trans hidx (le_trans (Nat.mod_le _ _) (by omega))
    have hcast : (preferred.indexOf preferred[j % preferred.length] : ℚ) ≤ 2 := by
      exact_mod_cast hidx2
    nlinarith

theorem hybFold_lookup (w : ℚ) (recs : List ContentRec) (d : List (String × ℚ))
    (k : String) :
    pyGet (hybFold w recs d) k 0 = pyGet d k 0
      + ((recs.filter (fun r => r.contentId == k)).map
          (fun r => r.relevanceScore * w)).sum := by
  rw [hybFold]
  exact foldAdd_lookup (fun r => r.contentId) (fun r => r.relevanceScore * w) recs d k

theorem hybFold_keys (w : ℚ) (recs : List ContentRec) (d : List (String × ℚ))
    (k : String) (hk : k ∈ (hybFold w recs d).map (fun kv => kv.1)) :
    k ∈ d.map (fun kv => kv.1) ∨ k ∈ recs.map (fun r => r.contentId) := by
  rw [hybFold] at hk
  exact foldAdd_keys (fun r => r.contentId) (fun r => r.relevanceScore * w) recs d k hk

theorem hybFold_keys_nodup (w : ℚ) (recs : List ContentRec) (d : List (String × ℚ))
    (hd : (d.map (fun kv => kv.1)).Nodup) :
    ((hybFold w recs d).map (fun kv => kv.1)).Nodup := by
  rw [hybFold]
  exact foldAdd_keys_nodup (fun r => r.contentId) (fun r => r.relevanceScore * w) recs d hd

theorem hybFold_ne_nil (w : ℚ) (recs : List ContentRec) (d : List (String × ℚ))
    (hd : d ≠ [] ∨ recs ≠ []) : hybFold w recs d ≠ [] := by
  rw [hybFold]
  exact foldAdd_ne_nil (fun r => r.contentId) (fun r => r.relevanceScore * w) recs d hd

theorem mem_sortMap (g : ContentItem → ContentRec) (candidates : List ContentItem)
    (r : ContentRec) (hr : r ∈ sortByRelevanceDesc (candidates.map g)) :
    ∃ c ∈ candidates, r = g c := by
  rw [sortByRelevanceDesc] at hr
  obtain ⟨c, hc, he⟩ := List.mem_map.mp (List.mem_mergeSort.mp hr)
  exact ⟨c, hc, he.symm⟩

theorem sortMap_mem (g : ContentItem → ContentRec) (candidates : List ContentItem)
    (c : ContentItem) (hc : c ∈ candidates) :
    g c ∈ sortByRelevanceDesc (candidates.map g) := by
  rw [sortByRelevanceDesc]
  exact List.mem_mergeSort.mpr (List.mem_map.mpr ⟨c, hc, rfl⟩)

theorem d3_value_bound
    (vrecs crecs srecs : List ContentRec) (cands : List ContentItem)
    (hv : ∀ r ∈ vrecs, 0 ≤ r.relevanceScore)
    (hcb : ∀ r ∈ crecs, 1/2 ≤ r.relevanceScore)
    (hsb : ∀ r ∈ srecs, 19/50 ≤ r.relevanceScore)
    (hvid : ∀ r ∈ vrecs, ∃ c ∈ cands, c.contentId = r.contentId)
    (hcid : ∀ r ∈ crecs, ∃ c ∈ cands, c.contentId = r.contentId)
    (hsid : ∀ r ∈ srecs, ∃ c ∈ cands, c.contentId = r.contentId)
    (hcined : ∀ k, (∃ c ∈ cands, c.contentId = k) → ∃ r ∈ crecs, r.contentId = k)
    (hsined : ∀ k, (∃ c ∈ cands, c.contentId = k) → ∃ r ∈ srecs, r.contentId = k) :
    ∀ kv ∈ hybFold (25/100) srecs (hybFold (35/100) crecs (hybFold (4/10) vrecs [])),
      27/100 ≤ kv.2 ∧ ∃ c ∈ cands, c.contentId = kv.1 := by
  intro kv hkv
  have hnd : ((hybFold (25/100) srecs (hybFold (35/100) crecs
      (hybFold (4/10) vrecs []))).map (fun kv => kv.1)).Nodup :=
    hybFold_keys_nodup _ _ _ (hybFold_keys_nodup _ _ _ (hybFold_keys_nodup _ _ _
      (by simp)))
  have hkmem : kv.1 ∈ (hybFold (25/100) srecs (hybFold (35/100) crecs
      (hybFold (4/10) vrecs []))).map (fun kv => kv.1) :=
    List.mem_map.mpr ⟨kv, hkv, rfl⟩
  have hcand : ∃ c ∈ cands, c.contentId = kv.1 := by
    rcases hybFold_keys _ _ _ _ hkmem with hk | hk
    · rcases hybFold_keys _ _ _ _ hk with hk2 | hk2
      · rcases hybFold_keys _ _ _ _ hk2 with hk3 | hk3
        · simp at hk3
        · obtain ⟨r0, hr0, hid⟩ := List.mem_map.mp hk3
          obtain ⟨c, hcm, hce⟩ := hvid r0 hr0
          exact ⟨c, hcm, by rw [hce, hid]⟩
      · obtain ⟨r0, hr0, hid⟩ := List.mem_map.mp hk2
        obtain ⟨c, hcm, hce⟩ := hcid r0 hr0
        exact ⟨c, hcm, by rw [hce, hid]⟩
    · obtain ⟨r0, hr0, hid⟩ := List.mem_map.mp hk
      obtain ⟨c, hcm, hce⟩ := hsid r0 hr0
      exact ⟨c, hcm, by rw [hce, hid]⟩
  refine ⟨?_, hcand⟩
  have hval := mem_nodup_value _ kv hnd hkv
  rw [hybFold_lookup, hybFold_lookup, hybFold_lookup] at hval
  have hnil : pyGet ([] : List (String × ℚ)) kv.1 0 = 0 := rfl
  rw [hnil] at hval
  obtain ⟨rc, hrc, hrcid⟩ := hcined kv.1 hcand
  obtain ⟨rs, hrs, hrsid⟩ := hsined kv.1 hcand
  have hsumv : 0 ≤ ((vrecs.filter (fun r => r.contentId == kv.1)).map
      (fun r => r.relevanceScore * (4/10))).sum := by
    apply List.sum_nonneg
    intro x hx
    obtain ⟨r0, hr0, hxe⟩ := List.mem_map.mp hx
    have := hv r0 (List.mem_of_mem_filter hr0)
    rw [← hxe]
    positivity
  have hsumc : 7/40 ≤ ((crecs.filter (fun r => r.contentId == kv.1)).map
      (fun r => r.relevanceScore * (35/100))).sum := by
    have hmemf : rc.relevanceScore * (35/100) ∈
        ((crecs.filter (fun r => r.contentId == kv.1)).map
          (fun r => r.relevanceScore * (35/100))) :=
      List.mem_map.mpr ⟨rc, List.mem_filter.mpr ⟨hrc, by simp [hrcid]⟩, rfl⟩
    have hsum := List.single_le_sum (l := (crecs.filter
        (fun r => r.contentId == kv.1)).map (fun r => r.relevanceScore * (35/100)))
      ?_ _ hmemf
    · have hb := hcb rc hrc
      nlinarith
    · intro x hx
      obtain ⟨r0, hr0, hxe⟩ := List.mem_map.mp hx
      have := hcb r0 (List.mem_of_mem_filter hr0)
      rw [← hxe]
      nlinarith
  have hsums : 19/200 ≤ ((srecs.filter (fun r => r.contentId == kv.1)).map
      (fun r => r.relevanceScore * (25/100))).sum := by
    have hmemf : rs.relevanceScore * (25/100) ∈
        ((srecs.filter (fun r => r.contentId == kv.1)).map
          (fun r => r.relevanceScore * (25/100))) :=
      List.mem_map.mpr ⟨rs, List.mem_filter.mpr ⟨hrs, by simp [hrsid]⟩, rfl⟩
    have hsum := List.single_le_sum (l := (srecs.filter
        (fun r => r.contentId == kv.1)).map (fun r => r.relevanceScore * (25/100)))
      ?_ _ hmemf
    · have hb := hsb rs hrs
      nlinarith
    · intro x hx
      obtain ⟨r0, hr0, hxe⟩ := List.mem_map.mp hx
      have := hsb r0 (List.mem_of_mem_filter hr0)
      rw [← hxe]
      nlinarith
  rw [hval]
  linarith

theorem crec_bound (req : ContentRecommendationRequest) (r : ContentRec)
    (hr : r ∈ collaborativeFilteringRecommendations defaultEngineState req
      (convertRecommendationRequestToProfile req) (getCandidateContent req)) :
    1/2 ≤ r.relevanceScore ∧ ∃ c ∈ getCandidateContent req, c.contentId = r.contentId := by
  obtain ⟨c, hc, he⟩ := mem_sortMap _ _ r hr
  have hcf : calculateCollaborativeScore defaultEngineState c.contentId
      (findSimilarUsers req.userId (convertRecommendationRequestToProfile req))
      req.userId = 1/2 := by
    rw [show findSimilarUsers req.userId (convertRecommendationRequestToProfile req)
        = (List.range 5).map (fun i => "similar_user_" ++ req.userId ++ "_" ++ toString i)
      from rfl]
    exact collaborativeScore_default req.userId c.contentId req.userId
  have hrate := peerRate_ge_half c.contentId
  constructor
  · rw [he]
    show 1/2 ≤ calculateCollaborativeScore defaultEngineState c.contentId
        (findSimilarUsers req.userId (convertRecommendationRequestToProfile req))
        req.userId * (7/10)
      + pyGet defaultEngineState.peerSuccessRates c.contentId (1/2) * (3/10)
    rw [hcf]
    nlinarith
  · exact ⟨c, hc, by rw [he]; rfl⟩

theorem srec_bound (req : ContentRecommendationRequest) (r : ContentRec)
    (hr : r ∈ learningStyleRecommendations req
      (convertRecommendationRequestToProfile req) (getCandidateContent req)) :
    19/50 ≤ r.relevanceScore ∧ ∃ c ∈ getCandidateContent req, c.contentId = r.contentId := by
  obtain ⟨c, hc, he⟩ := mem_sortMap _ _ r hr
  obtain ⟨t, i, j, hj, hcex⟩ := mem_getCandidateContent req c hc
  have hstyle : getUserLearningStyle req (convertRecommendationRequestToProfile req)
      = "visual" := rfl
  constructor
  · rw [he]
    show 19/50 ≤ calculateLearningStyleScore c
        (pyGet learningStylePreferences
          (getUserLearningStyle req (convertRecommendationRequestToProfile req)) [])
        * (6/10)
      + calculateFormatPreferenceScore c.format req.preferredFormats * (4/10)
    rw [hstyle]
    have h1 := styleScore_ge_mkCandidate c
    have h2 : 1/2 ≤ calculateFormatPreferenceScore c.format req.preferredFormats := by
      have hfmt : c.format = req.preferredFormats.getD
          (j % req.preferredFormats.length) .video := by
        rw [hcex]; rfl
      rw [hfmt]
      exact formatPref_ge_half req.preferredFormats j hj
    nlinarith
  · exact ⟨c, hc, by rw [he]; rfl⟩

theorem vrec_bound (h : String → Int) (simFn : List ℚ → List ℚ → ℚ)
    (hsim : ∀ v w, 0 ≤ simFn v w) (req : ContentRecommendationRequest)
    (r : ContentRec)
    (hr : r ∈ vectorSimilarityRecommendations defaultEngineState h simFn req
      (convertRecommendationRequestToProfile req) (getCandidateContent req)) :
    0 ≤ r.relevanceScore ∧ ∃ c ∈ getCandidateContent req, c.contentId = r.contentId := by
  obtain ⟨c, hc, he⟩ := mem_sortMap _ _ r hr
  exact ⟨by rw [he]; exact hsim _ _, c, hc, by rw [he]; rfl⟩

theorem hybrid_members (h : String → Int) (simFn : List ℚ → List ℚ → ℚ)
    (hsim : ∀ v w, 0 ≤ simFn v w) (req : ContentRecommendationRequest) :
    ∀ r ∈ hybridRecommendations defaultEngineState h simFn req
        (convertRecommendationRequestToProfile req) (getCandidateContent req),
      27/100 ≤ r.relevanceScore ∧ r.qualityScore = 3/5 ∧ r.source = "sample_content" := by
  intro r hr
  rw [hybridRecommendations, sortByRelevanceDesc] at hr
  obtain ⟨kv, hkv, hrF⟩ := List.mem_bind.mp (List.mem_mergeSort.mp hr)
  cases hfind : (getCandidateContent req).reverse.find?
      (fun c => c.contentId == kv.1) with
  | none => rw [hfind] at hrF; exact absurd hrF (List.not_mem_nil r)
  | some c =>
    rw [hfind] at hrF
    have hc : c ∈ getCandidateContent req :=
      List.mem_reverse.mp (List.mem_of_find?_eq_some hfind)
    have hre : r = mkContentRec c kv.2 (calculateQualityScore c) :=
      List.mem_singleton.mp hrF
    obtain ⟨t, i, j, hj, hcex⟩ := mem_getCandidateContent req c hc
    have hq : calculateQualityScore c = 3/5 := by
      rw [hcex]; exact quality_mkCandidate req t i j
    have hsrc : c.source = "sample_content" := by rw [hcex]; rfl
    have hbound := d3_value_bound
      (vectorSimilarityRecommendations defaultEngineState h simFn req
        (convertRecommendationRequestToProfile req) (getCandidateContent req))
      (collaborativeFilteringRecommendations defaultEngineState req
        (convertRecommendationRequestToProfile req) (getCandidateContent req))
      (learningStyleRecommendations req
        (convertRecommendationRequestToProfile req) (getCandidateContent req))
      (getCandidateContent req)
      (fun r0 hr0 => (vrec_bound h simFn hsim req r0 hr0).1)
      (fun r0 hr0 => (crec_bound req r0 hr0).1)
      (fun r0 hr0 => (srec_bound req r0 hr0).1)
      (fun r0 hr0 => (vrec_bound h simFn hsim req r0 hr0).2)
      (fun r0 hr0 => (crec_bound req r0 hr0).2)
      (fun r0 hr0 => (srec_bound req r0 hr0).2)
      (fun k hk => by
        obtain ⟨c0, hc0, hce0⟩ := hk
        exact ⟨mkContentRec c0 (calculateCollaborativeScore defaultEngineState
            c0.contentId (findSimilarUsers req.userId
              (convertRecommendationRequestToProfile req)) req.userId * (7/10)
          + pyGet defaultEngineState.peerSuccessRates c0.contentId (1/2) * (3/10))
          (calculateQualityScore c0),
          sortMap_mem _ _ c0 hc0, hce0⟩)
      (fun k hk => by
        obtain ⟨c0, hc0, hce0⟩ := hk
        exact ⟨mkContentRec c0 (calculateLearningStyleScore c0
            (pyGet learningStylePreferences
              (getUserLearningStyle req (convertRecommendationRequestToProfile req)) [])
            * (6/10)
          + calculateFormatPreferenceScore c0.format req.preferredFormats * (4/10))
          (calculateQualityScore c0),
          sortMap_mem _ _ c0 hc0, hce0⟩)
      kv hkv
    refine ⟨?_, by rw [hre]; exact hq, by rw [hre]; exact hsrc⟩
    rw [hre]
    exact hbound.1

theorem diversityLoop_subset :
    ∀ (l : List ContentRec) (d : List ContentRec) (t : List String)
      (f : List ContentFormat), ∀ x ∈ diversityLoop d t f l, x ∈ d ∨ x ∈ l := by
  intro l
  induction l with
  | nil => intro d t f x hx; left; simpa [diversityLoop] using hx
  | cons r rest ih =>
    intro d t f x hx
    simp only [diversityLoop] at hx
    split at hx
    · split at hx
      · rcases List.mem_append.mp hx with h1 | h1
        · exact Or.inl h1
        · right; rw [List.mem_singleton.mp h1]; exact List.mem_cons_self r rest
      · rcases ih _ _ _ x hx with h1 | h1
        · rcases List.mem_append.mp h1 with h2 | h2
          · exact Or.inl h2
          · right; rw [List.mem_singleton.mp h2]; exact List.mem_cons_self r rest
        · right; exact List.mem_cons_of_mem r h1
    · split at hx
      · exact Or.inl hx
      · rcases ih _ _ _ x hx with h1 | h1
        · exact Or.inl h1
        · right; exact List.mem_cons_of_mem r h1

theorem applyDiversityFilter_subset (recs : List ContentRec) :
    ∀ x ∈ applyDiversityFilter recs, x ∈ recs := by
  intro x hx
  rw [applyDiversityFilter] at hx
  split at hx
  · exact hx
  · rcases diversityLoop_subset recs [] [] [] x hx with h | h
    · exact absurd h (List.not_mem_nil x)
    · exact h

theorem applyDiversityFilter_ne_nil (recs : List ContentRec) (h : recs ≠ []) :
    applyDiversityFilter recs ≠ [] := by
  rw [applyDiversityFilter]
  split
  · exact h
  · intro hnil
    have ht := diversityLoop_take3 recs [] [] [] (by simp)
    rw [hnil] at ht
    rw [List.nil_append] at ht
    rcases List.take_eq_nil_iff.mp ht.symm with h3 | h3
    · norm_num at h3
    · exact h h3

theorem finalFilters_spec (req : ContentRecommendationRequest)
    (recs : List ContentRec)
    (hmem : ∀ r ∈ recs, 27/100 ≤ r.relevanceScore ∧ r.qualityScore = 3/5 ∧
      r.source = "sample_content") :
    (recs ≠ [] → applyFinalFilters recs req ≠ []) ∧
    ∀ x ∈ applyFinalFilters recs req, x.source = "sample_content" := by
  have hfeq : recs.filter (fun r =>
      isAgeAppropriate r req.educationLevel
        && decide (¬ r.qualityScore < 3/10)
        && decide (¬ r.relevanceScore < 2/10)) = recs := by
    apply List.filter_eq_self.mpr
    intro r hr
    obtain ⟨hrel, hq, _⟩ := hmem r hr
    rw [Bool.and_eq_true, Bool.and_eq_true]
    refine ⟨⟨?_, ?_⟩, ?_⟩
    · rw [isAgeAppropriate]
      split
      · rw [hq]; exact decide_eq_true (by norm_num)
      · rfl
    · rw [hq]; exact decide_eq_true (by norm_num)
    · exact decide_eq_true (by intro hcon; linarith)
  have hkey : applyFinalFilters recs req = sortByRelevanceDesc
      ((applyDiversityFilter recs).map (fun r =>
        { r with relevanceScore := r.relevanceScore * (7/10)
                  + r.qualityScore * (3/10) })) := by
    rw [applyFinalFilters, hfeq]
  rw [hkey]
  constructor
  · intro hne hnil
    have hdne := applyDiversityFilter_ne_nil recs hne
    have hlen := congrArg List.length hnil
    rw [sortByRelevanceDesc, List.length_mergeSort, List.length_map] at hlen
    exact hdne (List.length_eq_zero.mp hlen)
  · intro x hx
    rw [sortByRelevanceDesc] at hx
    obtain ⟨y, hy, hxy⟩ := List.mem_map.mp (List.mem_mergeSort.mp hx)
    have hys : y.source = "sample_content" :=
      (hmem y (applyDiversityFilter_subset recs y hy)).2.2
    rw [← hxy]
    exact hys

theorem hybrid_ne_nil (h : String → Int) (simFn : List ℚ → List ℚ → ℚ)
    (hsim : ∀ v w, 0 ≤ simFn v w) (req : ContentRecommendationRequest)
    (hc : getCandidateContent req ≠ []) :
    hybridRecommendations defaultEngineState h simFn req
      (convertRecommendationRequestToProfile req) (getCandidateContent req) ≠ [] := by
  rw [hybridRecommendations, sortByRelevanceDesc]
  intro hnil
  have hlen := congrArg List.length hnil
  rw [List.length_mergeSort] at hlen
  have hbnil := List.length_eq_zero.mp hlen
  have hsne : learningStyleRecommendations req
      (convertRecommendationRequestToProfile req) (getCandidateContent req) ≠ [] := by
    have hls : (learningStyleRecommendations req
        (convertRecommendationRequestToProfile req)
        (getCandidateContent req)).length = (getCandidateContent req).length := by
      rw [learningStyleRecommendations, sortByRelevanceDesc, List.length_mergeSort,
        List.length_map]
    intro hnil2
    rw [hnil2] at hls
    exact hc (List.length_eq_zero.mp hls.symm)
  have hd3ne := hybFold_ne_nil (25/100)
    (learningStyleRecommendations req (convertRecommendationRequestToProfile req)
      (getCandidateContent req))
    (hybFold (35/100) (collaborativeFilteringRecommendations defaultEngineState req
        (convertRecommendationRequestToProfile req) (getCandidateContent req))
      (hybFold (4/10) (vectorSimilarityRecommendations defaultEngineState h simFn req
          (convertRecommendationRequestToProfile req) (getCandidateContent req)) []))
    (Or.inr hsne)
  obtain ⟨kv0, hkv0⟩ := List.exists_mem_of_ne_nil _ hd3ne
  have hFnil := (List.bind_eq_nil.mp hbnil) kv0 hkv0
  obtain ⟨c0, hc0, hcid0⟩ := (d3_value_bound
    (vectorSimilarityRecommendations defaultEngineState h simFn req
      (convertRecommendationRequestToProfile req) (getCandidateContent req))
    (collaborativeFilteringRecommendations defaultEngineState req
      (convertRecommendationRequestToProfile req) (getCandidateContent req))
    (learningStyleRecommendations req
      (convertRecommendationRequestToProfile req) (getCandidateContent req))
    (getCandidateContent req)
    (fun r0 hr0 => (vrec_bound h simFn hsim req r0 hr0).1)
    (fun r0 hr0 => (crec_bound req r0 hr0).1)
    (fun r0 hr0 => (srec_bound req r0 hr0).1)
    (fun r0 hr0 => (vrec_bound h simFn hsim req r0 hr0).2)
    (fun r0 hr0 => (crec_bound req r0 hr0).2)
    (fun r0 hr0 => (srec_bound req r0 hr0).2)
    (fun k hk => by
      obtain ⟨c1, hc1, hce1⟩ := hk
      exact ⟨mkContentRec c1 (calculateCollaborativeScore defaultEngineState
          c1.contentId (findSimilarUsers req.userId
            (convertRecommendationRequestToProfile req)) req.userId * (7/10)
        + pyGet defaultEngineState.peerSuccessRates c1.contentId (1/2) * (3/10))
        (calculateQualityScore c1),
        sortMap_mem _ _ c1 hc1, hce1⟩)
    (fun k hk => by
      obtain ⟨c1, hc1, hce1⟩ := hk
      exact ⟨mkContentRec c1 (calculateLearningStyleScore c1
          (pyGet learningStylePreferences
            (getUserLearningStyle req (convertRecommendationRequestToProfile req)) [])
          * (6/10)
        + calculateFormatPreferenceScore c1.format req.preferredFormats * (4/10))
        (calculateQualityScore c1),
        sortMap_mem _ _ c1 hc1, hce1⟩)
    kv0 hkv0).2
  cases hf2 : (getCandidateContent req).reverse.find?
      (fun c => c.contentId == kv0.1) with
  | none =>
    have : ∀ c ∈ (getCandidateContent req).reverse,
        ¬ (c.contentId == kv0.1) = true := List.find?_eq_none.mp hf2
    exact this c0 (List.mem_reverse.mpr hc0) (by simp [hcid0])
  | some cfound =>
    rw [hf2] at hFnil
    exact absurd hFnil (by simp)

theorem algoRecs_spec (h : String → Int) (simFn : List ℚ → List ℚ → ℚ)
    (hsim : ∀ v w, 0 ≤ simFn v w) (req : ContentRecommendationRequest) :
    getAlgorithmicContentRecommendations defaultEngineState h simFn req none ≠ [] ∧
    ∀ r ∈ getAlgorithmicContentRecommendations defaultEngineState h simFn req none,
      r.source = "sample_content" ∨ r.source = "fallback" := by
  have halg : getAlgorithmicContentRecommendations defaultEngineState h simFn req none
      = getPersonalizedRecommendations defaultEngineState h simFn req
          (convertRecommendationRequestToProfile req) .hybrid 10 := rfl
  rw [halg, getPersonalizedRecommendations]
  split
  · constructor
    · simp [getFallbackRecommendations]
    · intro r hr
      right
      rw [getFallbackRecommendations] at hr
      obtain ⟨i, _, he⟩ := List.mem_map.mp hr
      rw [← he]
  · rename_i hcne
    have hmem := hybrid_members h simFn hsim req
    have hfin := finalFilters_spec req _ hmem
    have hne := hybrid_ne_nil h simFn hsim req hcne
    constructor
    · intro hnil
      rcases List.take_eq_nil_iff.mp hnil with h3 | h3
      · norm_num at h3
      · exact hfin.1 hne h3
    · intro r hr
      left
      exact hfin.2 r (List.take_subset _ _ hr)

/-- C2: with both providers raising on every call (and fallbacks enabled),
`generate_learning_path` still returns the pure-algorithmic path — with a
non-empty objective list and the `algorithm_generated` / `algorithmic`
markers — and `get_content_recommendations` still returns the non-empty
algorithmic recommendation dicts, each carrying a `sample_content` or
`fallback` source marker; neither operation escalates the provider error. -/
theorem claim_c2_provider_failure_fallback
    (og gg : LearningPathRequest → Except Unit PathOut)
    (orc grc : ContentRecommendationRequest → Except Unit (List RecDict))
    (hog : ∀ r, og r = .error ()) (hgg : ∀ r, gg r = .error ())
    (horc : ∀ r, orc r = .error ()) (hgrc : ∀ r, grc r = .error ())
    (cur : AIProvider) (override : Option AIProvider)
    (preq : LearningPathRequest) (now : Nat)
    (h : String → Int) (simFn : List ℚ → List ℚ → ℚ)
    (hsim : ∀ v w, 0 ≤ simFn v w)
    (rreq : ContentRecommendationRequest) :
    generateLearningPath og gg true cur override preq now
        = generateAlgorithmicLearningPath preq now ∧
    (generateLearningPath og gg true cur override preq now).objectives ≠ [] ∧
    (generateLearningPath og gg true cur override preq now).source
        = some "algorithm_generated" ∧
    (generateLearningPath og gg true cur override preq now).aiProvider
        = some "algorithmic" ∧
    getContentRecommendations orc grc true cur override defaultEngineState h simFn
        rreq none
      = (getAlgorithmicContentRecommendations defaultEngineState h simFn rreq
          none).map recToDict ∧
    getContentRecommendations orc grc true cur override defaultEngineState h simFn
        rreq none ≠ [] ∧
    ∀ x ∈ getContentRecommendations orc grc true cur override defaultEngineState h
        simFn rreq none,
      x.source = some "sample_content" ∨ x.source = some "fallback" := by
  have hpath := generateLearningPath_bothFail og gg hog hgg cur override preq now
  have hmark := generateAlgorithmic_markers preq now
  have hai : getAiContentRecommendations orc grc true cur override rreq = none := by
    rw [getAiContentRecommendations]
    cases hover : override.getD cur <;>
      simp [callRecProvider, horc, hgrc, otherProvider]
  have hrec : getContentRecommendations orc grc true cur override defaultEngineState
      h simFn rreq none
        = (getAlgorithmicContentRecommendations defaultEngineState h simFn rreq
            none).map recToDict := by
    rw [getContentRecommendations, hai]
  have halgo := algoRecs_spec h simFn hsim rreq
  refine ⟨hpath, ?_, ?_, ?_, hrec, ?_, ?_⟩
  · rw [hpath]; exact hmark.1
  · rw [hpath]; exact hmark.2.1
  · rw [hpath]; exact hmark.2.2
  · rw [hrec]
    intro hnil
    exact halgo.1 (List.map_eq_nil.mp hnil)
  · intro x hx
    rw [hrec] at hx
    obtain ⟨r, hr, hxe⟩ := List.mem_map.mp hx
    rcases halgo.2 r hr with hs | hs
    · left; rw [← hxe, recToDict, hs]
    · right; rw [← hxe, recToDict, hs]

/-- Closed instantiation of the C2 theorem: both providers fail on a
concrete request; the conclusions are obtained by direct application. -/
theorem claim_c2_witness :
    generateLearningPath (fun _ => Except.error ()) (fun _ => Except.error ()) true
        .openai none
        { userId := "u", subject := "mathematics", learningGoals := ["algebra"],
          educationLevel := .k12, currentLevel := .beginner,
          learningStyle := .visual, timeCommitment := 5 } 0
      = generateAlgorithmicLearningPath
        { userId := "u", subject := "mathematics", learningGoals := ["algebra"],
          educationLevel := .k12, currentLevel := .beginner,
          learningStyle := .visual, timeCommitment := 5 } 0 ∧
    getContentRecommendations (fun _ => Except.error ()) (fun _ => Except.error ())
        true .openai none defaultEngineState (fun _ => 0) (fun _ _ => 0) c4Req none
        ≠ [] := by
  have hfull := claim_c2_provider_failure_fallback
    (fun _ => Except.error ()) (fun _ => Except.error ())
    (fun _ => Except.error ()) (fun _ => Except.error ())
    (fun _ => rfl) (fun _ => rfl) (fun _ => rfl) (fun _ => rfl)
    .openai none
    { userId := "u", subject := "mathematics", learningGoals := ["algebra"],
      educationLevel := .k12, currentLevel := .beginner,
      learningStyle := .visual, timeCommitment := 5 } 0
    (fun _ => 0) (fun _ _ => 0) (fun _ _ => le_refl 0) c4Req
  exact ⟨hfull.1, hfull.2.2.2.2.2.1⟩
